import Mathlib

/-!
# View manager of rviz (`src/rviz/view_manager.cpp`)

A shallow embedding of `rviz::ViewManager`.  C++ objects live in an explicit
heap (`objects`) and are referred to by their identity (a `Nat`, standing for
the address); a nullable pointer is an `Option Nat`.  Operations that
dereference a pointer return `Option`: `none` stands for undefined behaviour
(a null or dangling dereference) or for behaviour the collaborators leave
unspecified.  Everything observable that the manager does to its
collaborators is appended to `trace`.
-/

namespace rviz

/-- The four concrete controller classes that `ViewManager::create` can build. -/
inductive ViewControllerClass
  | OrbitViewController
  | XYOrbitViewController
  | FPSViewController
  | FixedOrientationOrthoViewController
  deriving DecidableEq, Repr

/-- Modelled from the spec: `getClassNameStatic()` of each concrete controller
(declared in the controllers' headers): the canonical type identifier, the
first string `create` compares against for that class. -/
def getClassNameStatic : ViewControllerClass → String
  | .OrbitViewController => "rviz::OrbitViewController"
  | .XYOrbitViewController => "rviz::XYOrbitViewController"
  | .FPSViewController => "rviz::FPSViewController"
  | .FixedOrientationOrthoViewController => "rviz::FixedOrientationOrthoViewController"

/-- A live controller object.  `id` is its identity, `cls` its dynamic class,
`name` the display name of the property (user-editable), `target_frame` the
last frame pushed by `setTargetFrame`. -/
structure ViewController where
  id : Nat
  cls : ViewControllerClass
  name : String
  target_frame : Option String
  deriving DecidableEq, Repr

/-- The virtual `getClassName()`: the class name of the dynamic class. -/
def ViewController.getClassName (v : ViewController) : String :=
  getClassNameStatic v.cls

/-- The Qt signals of `ViewManager`. -/
inductive Signal
  | viewControllerTypeAdded (class_name name : String)
  | currentChanged (view : Nat)
  | configChanged
  deriving DecidableEq, Repr

/-- What the manager does to the outside, in order.  A `signal` records, next
to the signal itself, the controller the render panel holds and
`current_view_` at the moment of emission (what an observer can see). -/
inductive Effect
  | constructed (view : Nat) (cls : ViewControllerClass) (name : String)
  | copied (view source : Nat)
  | addChild (view : Nat) (index : Nat)
  | initializeFrom (view old_view : Nat)
  | setViewController (view : Nat) (deactivate_previous : Bool)
  | setTargetFrame (view : Nat) (frame : String)
  | deleted (view : Nat)
  | signal (sig : Signal) (panel_view current_view : Option Nat)
  deriving DecidableEq, Repr

/-- The manager together with the collaborators it talks to.
* `objects`: the live controller objects; `next_id`: the next fresh identity;
* `children`: the children of `root_property_` in order (the instance store);
* `current_view_`, `types_`: the members of that name;
* `connections`: the senders whose `destroyed` signal is connected to
  `onViewDeleted`, one entry per connection;
* `panel_view`: the controller held by `context_->getRenderPanel()`;
* `target_frame`: `context_->getTargetFrame()`. -/
structure ViewManager where
  objects : List ViewController
  next_id : Nat
  children : List Nat
  current_view_ : Option Nat
  types_ : List String
  connections : List Nat
  panel_view : Option Nat
  target_frame : String
  trace : List Effect
  deriving DecidableEq, Repr

/-- The constructor `ViewManager::ViewManager(context)`: no current view, an
empty `root_property_`, an empty type list. -/
def ViewManager.new (target_frame : String) : ViewManager :=
  { objects := [], next_id := 0, children := [], current_view_ := none, types_ := [],
    connections := [], panel_view := none, target_frame := target_frame, trace := [] }

/-- Dereference a pointer: the live object with that identity, if any. -/
def ViewManager.deref (m : ViewManager) (view : Nat) : Option ViewController :=
  m.objects.find? (fun o => o.id == view)

/-- Emit a Qt signal (`Q_EMIT`). -/
def ViewManager.emit (m : ViewManager) (sig : Signal) : ViewManager :=
  { m with trace := m.trace ++ [Effect.signal sig m.panel_view m.current_view_] }

/-- Modelled from the spec: `new XxxViewController(context_, name, target_scene_node_)`,
the constructors of the concrete controllers: a new object with a fresh
identity, of the given class and display name, bound to the scene node. -/
def ViewManager.construct (m : ViewManager) (cls : ViewControllerClass) (name : String) :
    Option Nat × ViewManager :=
  (some m.next_id,
   { m with
     objects := m.objects ++ [{ id := m.next_id, cls := cls, name := name, target_frame := none }]
     next_id := m.next_id + 1
     trace := m.trace ++ [Effect.constructed m.next_id cls name] })

/-- `ViewManager::getNumViews`. -/
def ViewManager.getNumViews (m : ViewManager) : Nat :=
  m.children.length

/-- `ViewManager::getViewAt`: the child of `root_property_` at `index`. -/
def ViewManager.getViewAt (m : ViewManager) (index : Nat) : Option Nat :=
  m.children.get? index

/-- Modelled from the spec: `Property::addChild(child, index)` on
`root_property_`: the child is inserted at `index`, and at the end when `index`
is negative (the default argument `-1`) or past the end. -/
def ViewManager.addChild (m : ViewManager) (view : Nat) (index : Int) : ViewManager :=
  let i := if index < 0 ∨ (m.children.length : Int) < index then m.children.length
           else index.toNat
  { m with
    children := m.children.take i ++ [view] ++ m.children.drop i
    trace := m.trace ++ [Effect.addChild view i] }

/-- `ViewManager::add(view, index)`. -/
def ViewManager.add (m : ViewManager) (view : Nat) (index : Int) : ViewManager :=
  m.addChild view index

/-- `ViewManager::addViewController`. -/
def ViewManager.addViewController (m : ViewManager) (class_name name : String) : ViewManager :=
  let m1 := m.emit (Signal.viewControllerTypeAdded class_name name)
  { m1 with types_ := m1.types_ ++ [name] }

/-- `ViewManager::create`: the chain of string comparisons of the source; the
result is the new object or `none` for `NULL`. -/
def ViewManager.create (m : ViewManager) (type : String) : Option Nat × ViewManager :=
  if type = "rviz::OrbitViewController" ∨ type = "Orbit" then
    m.construct .OrbitViewController "Orbit"
  else if type = "rviz::XYOrbitViewController" ∨ type = "XYOrbit" ∨
      type = "rviz::SimpleOrbitViewController" ∨ type = "SimpleOrbit" then
    m.construct .XYOrbitViewController "XYOrbit"
  else if type = "rviz::FPSViewController" ∨ type = "FPS" then
    m.construct .FPSViewController "FPS"
  else if type = "rviz::FixedOrientationOrthoViewController" ∨ type = "TopDownOrtho" ∨
      type = "Top-down Orthographic" then
    m.construct .FixedOrientationOrthoViewController "TopDownOrtho"
  else
    (none, m)

/-- Modelled from the spec: `view->setTargetFrame(frame)` of the controller:
the frame is stored in the object.  Undefined when `view` is not live. -/
def ViewManager.setTargetFrame (m : ViewManager) (view : Nat) (frame : String) :
    Option ViewManager :=
  match m.deref view with
  | none => none
  | some _ =>
    some { m with
      objects := m.objects.map (fun o => if o.id = view then { o with target_frame := some frame } else o)
      trace := m.trace ++ [Effect.setTargetFrame view frame] }

/-- Modelled from the spec: `view->setName(name)` of the property.  Undefined
when `view` is not live. -/
def ViewManager.setName (m : ViewManager) (view : Nat) (name : String) : Option ViewManager :=
  match m.deref view with
  | none => none
  | some _ =>
    some { m with
      objects := m.objects.map (fun o => if o.id = view then { o with name := name } else o) }

/-- Modelled from the spec: `view->initializeFrom(old_view)`; what is carried
over is owned by the concrete controller, the manager only makes the call. -/
def ViewManager.initializeFrom (m : ViewManager) (view old_view : Nat) : ViewManager :=
  { m with trace := m.trace ++ [Effect.initializeFrom view old_view] }

/-- Modelled from the spec: `RenderPanel::setViewController(view, deactivate_previous)`:
the render panel synchronously makes `view` its controller. -/
def ViewManager.setViewController (m : ViewManager) (view : Nat) (deactivate_previous : Bool) :
    ViewManager :=
  { m with
    panel_view := some view
    trace := m.trace ++ [Effect.setViewController view deactivate_previous] }

/-- `ViewManager::setCurrent(view, deactivate_previous)`. -/
def ViewManager.setCurrent (m : ViewManager) (view : Nat) (deactivate_previous : Bool) :
    Option (Bool × ViewManager) :=
  if some view ≠ m.current_view_ then
    -- disconnect( current_view_, destroyed, this, onViewDeleted )
    let m1 :=
      match deactivate_previous, m.current_view_ with
      | true, some cur => { m with connections := m.connections.filter (fun c => c ≠ cur) }
      | _, _ => m
    -- connect( view, destroyed, this, onViewDeleted )
    let m2 := { m1 with connections := m1.connections ++ [view] }
    let m3 := m2.setViewController view deactivate_previous
    match m3.setTargetFrame view m3.target_frame with
    | none => none
    | some m4 =>
      let m5 := { m4 with current_view_ := some view }
      let m6 := m5.emit (Signal.currentChanged view)
      let m7 := m6.emit Signal.configChanged
      some (true, m7)
  else
    some (false, m)

/-- `ViewManager::onViewDeleted(deleted_object)`. -/
def ViewManager.onViewDeleted (m : ViewManager) (deleted_object : Nat) : Option ViewManager :=
  if m.current_view_ = some deleted_object then
    let r : Option Nat × ViewManager :=
      if m.getNumViews = 0 ∨ (m.getNumViews = 1 ∧ m.getViewAt 0 = m.current_view_) then
        let c := m.create "Orbit"
        match c.1 with
        | some view => (some view, c.2.add view (-1))
        | none => (none, c.2)
      else
        let view := m.getViewAt 0
        if view = m.current_view_ then (m.getViewAt 1, m) else (view, m)
    match r.1 with
    | none => none
    | some view => (r.2.setCurrent view false).map (fun p => p.2)
  else
    some m

/-- Deliver the `destroyed(QObject*)` signal of `view` to `n` connections of
the slot `onViewDeleted`. -/
def ViewManager.emitDestroyed (view : Nat) : Nat → ViewManager → Option ViewManager
  | 0, m => some m
  | n + 1, m =>
    match m.onViewDeleted view with
    | none => none
    | some m1 => ViewManager.emitDestroyed view n m1

/-- Modelled from the spec: `delete view` for a controller.  The property
destructor first takes the object out of its parent (the store is pruned), the
`QObject` destructor then emits `destroyed` to every connected slot, and the
object is gone.  Undefined when `view` is not live. -/
def ViewManager.deleteView (m : ViewManager) (view : Nat) : Option ViewManager :=
  match m.deref view with
  | none => none
  | some _ =>
    let m1 := { m with
      children := m.children.filter (fun c => c ≠ view)
      trace := m.trace ++ [Effect.deleted view] }
    match ViewManager.emitDestroyed view (m1.connections.count view) m1 with
    | none => none
    | some m2 =>
      some { m2 with
        objects := m2.objects.filter (fun o => o.id ≠ view)
        connections := m2.connections.filter (fun c => c ≠ view) }

/-- The guard of `setCurrentViewControllerType`:
`current_view_ && (current_view_->getClassName() == type || current_view_->getName() == type)`. -/
def ViewManager.currentIsType (m : ViewManager) (type : String) : Option Bool :=
  match m.current_view_ with
  | none => some false
  | some cur =>
    match m.deref cur with
    | none => none
    | some o => some (decide (o.getClassName = type ∨ o.name = type))

/-- `ViewManager::setCurrentViewControllerType(type)`. -/
def ViewManager.setCurrentViewControllerType (m : ViewManager) (type : String) :
    Option (Bool × ViewManager) :=
  match m.currentIsType type with
  | none => none
  | some true => some (true, m)
  | some false =>
    let c := m.create type
    let c := if c.1 = none ∧ c.2.current_view_ = none then c.2.create "Orbit" else c
    match c.1 with
    | some view =>
      let m1 := c.2.add view (-1)
      let old_view := m1.current_view_
      let m2 :=
        match old_view with
        | some old => m1.initializeFrom view old
        | none => m1
      match m2.setCurrent view true with
      | none => none
      | some (_, m3) =>
        match old_view with
        | some old => (m3.deleteView old).map (fun m4 => (true, m4))
        | none => some (true, m3)
    | none => some (false, c.2)

/-- Modelled from the spec: `rowNumberInParent()` of a property: the position
of the view among the children of the store root; unspecified (`none`) when it
is not one of them. -/
def ViewManager.rowNumberInParent (m : ViewManager) (view : Nat) : Option Nat :=
  if view ∈ m.children then some (m.children.indexOf view) else none

/-- Modelled from the spec: `source->copy()` of a controller: a new object of
the same class with a copy of the source's state. -/
def ViewManager.copy (m : ViewManager) (source : ViewController) : Nat × ViewManager :=
  (m.next_id,
   { m with
     objects := m.objects ++ [{ source with id := m.next_id }]
     next_id := m.next_id + 1
     trace := m.trace ++ [Effect.copied m.next_id source.id] })

/-- `ViewManager::copyCurrent`. -/
def ViewManager.copyCurrent (m : ViewManager) : Option ViewManager :=
  match m.current_view_ with
  | none => none
  | some cur =>
    match m.deref cur with
    | none => none
    | some o =>
      let c := m.copy o
      let new_view := c.1
      match c.2.setName new_view ("Copy of " ++ o.name) with
      | none => none
      | some m2 =>
        match m2.rowNumberInParent cur with
        | none => none
        | some row =>
          (m2.add new_view ((row : Int) + 1) |>.setCurrent new_view true).map (fun p => p.2)

/-- `ViewManager::initialize`. -/
def ViewManager.initialize (m : ViewManager) : Option ViewManager :=
  let m1 := m.addViewController (getClassNameStatic .XYOrbitViewController) "XYOrbit"
  let m2 := m1.addViewController (getClassNameStatic .OrbitViewController) "Orbit"
  let m3 := m2.addViewController (getClassNameStatic .FPSViewController) "FPS"
  let m4 := m3.addViewController (getClassNameStatic .FixedOrientationOrthoViewController)
    "TopDownOrtho"
  (m4.setCurrentViewControllerType (getClassNameStatic .OrbitViewController)).map (fun p => p.2)

/-! ## Vocabulary of the specification -/

/-- The display name of each concrete class: the name `initialize` registers
it under. -/
def displayName : ViewControllerClass → String
  | .OrbitViewController => "Orbit"
  | .XYOrbitViewController => "XYOrbit"
  | .FPSViewController => "FPS"
  | .FixedOrientationOrthoViewController => "TopDownOrtho"

/-- The legacy alias strings of each concrete class (names of renamed types). -/
def legacyAliases : ViewControllerClass → List String
  | .OrbitViewController => []
  | .XYOrbitViewController => ["rviz::SimpleOrbitViewController", "SimpleOrbit"]
  | .FPSViewController => []
  | .FixedOrientationOrthoViewController => ["Top-down Orthographic"]

/-- The alias group of a class: its canonical class identifier, its short
display alias and its legacy aliases. -/
def aliasGroup (cls : ViewControllerClass) : List String :=
  getClassNameStatic cls :: displayName cls :: legacyAliases cls

/-- All four concrete classes. -/
def allClasses : List ViewControllerClass :=
  [.OrbitViewController, .XYOrbitViewController, .FPSViewController,
   .FixedOrientationOrthoViewController]

/-- The identifiers the factory recognizes: the members of the alias groups. -/
def recognizedIdentifiers : List String :=
  allClasses.flatMap aliasGroup

/-- Well-formed heap: every live object was handed out by the allocator, no
two live objects share an identity, `current_view_` (when set) and every child
of the store root point to live objects. -/
def ViewManager.WF (m : ViewManager) : Prop :=
  (∀ o ∈ m.objects, o.id < m.next_id) ∧
  (m.objects.map (fun o => o.id)).Nodup ∧
  (∀ c ∈ m.current_view_, (m.deref c).isSome = true) ∧
  (∀ c ∈ m.children, (m.deref c).isSome = true)

/-- The class of the object `create type` builds in state `m`, if it builds one. -/
def ViewManager.createdClass (m : ViewManager) (type : String) : Option ViewControllerClass :=
  match (m.create type).1 with
  | none => none
  | some view => ((m.create type).2.deref view).map (fun o => o.cls)

/-- The state `initialize` leaves a new manager in (context target frame
`"map"`): the four registered types and one current `Orbit` view. -/
def seeded : ViewManager :=
  { objects := [{ id := 0, cls := .OrbitViewController, name := "Orbit",
                  target_frame := some "map" }]
    next_id := 1
    children := [0]
    current_view_ := some 0
    types_ := ["XYOrbit", "Orbit", "FPS", "TopDownOrtho"]
    connections := [0]
    panel_view := some 0
    target_frame := "map"
    trace :=
      [Effect.signal (Signal.viewControllerTypeAdded "rviz::XYOrbitViewController" "XYOrbit")
         none none,
       Effect.signal (Signal.viewControllerTypeAdded "rviz::OrbitViewController" "Orbit")
         none none,
       Effect.signal (Signal.viewControllerTypeAdded "rviz::FPSViewController" "FPS") none none,
       Effect.signal (Signal.viewControllerTypeAdded "rviz::FixedOrientationOrthoViewController"
         "TopDownOrtho") none none,
       Effect.constructed 0 .OrbitViewController "Orbit",
       Effect.addChild 0 0,
       Effect.setViewController 0 true,
       Effect.setTargetFrame 0 "map",
       Effect.signal (Signal.currentChanged 0) (some 0) (some 0),
       Effect.signal Signal.configChanged (some 0) (some 0)] }

/-- The seeded state after the user renamed the current view to "Front". -/
def seededRenamed : ViewManager :=
  { seeded with
    objects := [{ id := 0, cls := .OrbitViewController, name := "Front",
                  target_frame := some "map" }] }

/-- All legacy alias strings. -/
def legacyIdentifiers : List String :=
  allClasses.flatMap legacyAliases

/-- The class names and display names announced by `viewControllerTypeAdded`
in a trace. -/
def typeAddedIdentifiers : List Effect → List String
  | [] => []
  | Effect.signal (Signal.viewControllerTypeAdded class_name name) _ _ :: rest =>
    class_name :: name :: typeAddedIdentifiers rest
  | _ :: rest => typeAddedIdentifiers rest

/-- The type identifiers `initialize` registers: every class name and display
name it passes to `addViewController`. -/
def registeredIdentifiers : List String :=
  match ViewManager.initialize (ViewManager.new "") with
  | none => []
  | some m => typeAddedIdentifiers m.trace

/-- A sequence of `setCurrentViewControllerType` calls, one per type string. -/
def ViewManager.setCurrentViewControllerTypes (m : ViewManager) : List String → Option ViewManager
  | [] => some m
  | type :: rest =>
    match m.setCurrentViewControllerType type with
    | none => none
    | some r => r.2.setCurrentViewControllerTypes rest

/-- The state reached from a new manager by `setCurrentViewControllerType("XYOrbit")`:
one current `XYOrbit` view. -/
def xyCurrent : ViewManager :=
  { objects := [{ id := 0, cls := .XYOrbitViewController, name := "XYOrbit",
                  target_frame := some "map" }]
    next_id := 1
    children := [0]
    current_view_ := some 0
    types_ := []
    connections := [0]
    panel_view := some 0
    target_frame := "map"
    trace :=
      [Effect.constructed 0 .XYOrbitViewController "XYOrbit",
       Effect.addChild 0 0,
       Effect.setViewController 0 true,
       Effect.setTargetFrame 0 "map",
       Effect.signal (Signal.currentChanged 0) (some 0) (some 0),
       Effect.signal Signal.configChanged (some 0) (some 0)] }

/-- The seeded state after `copyCurrent`: the store holds the Orbit view 0 and
its copy 1, the copy is current. -/
def twoViews : ViewManager :=
  (seeded.copyCurrent).getD seeded

/-- The state `twoViews` after `setCurrent(0)`: the store is `[0, 1]` and the
current view is the first entry. -/
def twoViewsFirst : ViewManager :=
  ((twoViews.setCurrent 0 true).map (fun p => p.2)).getD twoViews

/-- What an observer sees at a notification: at `currentChanged(view)` the
render panel's controller and `current_view_` are both `view`; at
`configChanged` the render panel's controller is `current_view_`.  Other
effects carry no such obligation. -/
def Effect.panelAgrees : Effect → Prop
  | .signal (.currentChanged view) panel_view current_view =>
    panel_view = some view ∧ current_view = some view
  | .signal .configChanged panel_view current_view => panel_view = current_view
  | _ => True

/-- The trace of `m1` extends the trace of `m` by effects whose notifications
all see the render panel and the manager agree. -/
def ViewManager.TraceExt (m m1 : ViewManager) : Prop :=
  ∃ added, m1.trace = m.trace ++ added ∧ ∀ e ∈ added, e.panelAgrees

/-- Whether an effect is a call of `initializeFrom`. -/
def Effect.isInitializeFrom : Effect → Bool
  | .initializeFrom _ _ => true
  | _ => false

/-- The (class name, display name) pairs announced by
`viewControllerTypeAdded` in a trace. -/
def typeAddedPairs : List Effect → List (String × String)
  | [] => []
  | Effect.signal (Signal.viewControllerTypeAdded class_name name) _ _ :: rest =>
    (class_name, name) :: typeAddedPairs rest
  | _ :: rest => typeAddedPairs rest

/-- The (class identifier, display name) pairs `initialize` registers. -/
def registeredTypes : List (String × String) :=
  match ViewManager.initialize (ViewManager.new "") with
  | none => []
  | some m => typeAddedPairs m.trace

/-- The public operations on a manager: `initialize`,
`setCurrentViewControllerType`, `setCurrent`, `copyCurrent`, and the
destruction of a stored view (which runs `onViewDeleted` through the
`destroyed` signal). -/
inductive Op
  | init
  | setCurrentViewControllerType (type : String)
  | setCurrent (view : Nat) (deactivate_previous : Bool)
  | copyCurrent
  | destroy (view : Nat)
  deriving DecidableEq, Repr

/-- One public operation.  Only a view that is in the store can be destroyed. -/
def ViewManager.step (m : ViewManager) : Op → Option ViewManager
  | .init => ViewManager.initialize m
  | .setCurrentViewControllerType type =>
    (m.setCurrentViewControllerType type).map (fun p => p.2)
  | .setCurrent view deactivate_previous =>
    (m.setCurrent view deactivate_previous).map (fun p => p.2)
  | .copyCurrent => m.copyCurrent
  | .destroy view => if view ∈ m.children then m.deleteView view else none

/-- A sequence of public operations. -/
def ViewManager.run (m : ViewManager) : List Op → Option ViewManager
  | [] => some m
  | op :: ops =>
    match m.step op with
    | none => none
    | some m1 => m1.run ops

/-- Heap and store agree: every live object was handed out by the allocator,
identities are distinct, and the live objects are exactly the stored ones. -/
def StoreCore (objs : List ViewController) (n : Nat) (children : List Nat) : Prop :=
  (∀ o ∈ objs, o.id < n) ∧ (objs.map (fun o => o.id)).Nodup ∧
  (∀ o ∈ objs, o.id ∈ children) ∧ (∀ c ∈ children, ∃ o ∈ objs, o.id = c)

/-- The invariant of the reachable states: heap and store agree, the current
view (when set) is stored and its `destroyed` signal is connected, and a
non-empty store has a current view. -/
def ViewManager.Inv (m : ViewManager) : Prop :=
  StoreCore m.objects m.next_id m.children ∧
  (∀ c ∈ m.current_view_, c ∈ m.children ∧ c ∈ m.connections) ∧
  (m.children ≠ [] → m.current_view_ ≠ none)

/-! ## Theorems -/

/-! ### The factory -/

theorem mem_recognizedIdentifiers (type : String) :
    type ∈ recognizedIdentifiers ↔
      (type = "rviz::OrbitViewController" ∨ type = "Orbit") ∨
      (type = "rviz::XYOrbitViewController" ∨ type = "XYOrbit" ∨
        type = "rviz::SimpleOrbitViewController" ∨ type = "SimpleOrbit") ∨
      (type = "rviz::FPSViewController" ∨ type = "FPS") ∨
      (type = "rviz::FixedOrientationOrthoViewController" ∨ type = "TopDownOrtho" ∨
        type = "Top-down Orthographic") := by
  simp [recognizedIdentifiers, allClasses, aliasGroup, legacyAliases, displayName,
    getClassNameStatic]
  tauto

theorem create_of_mem_aliasGroup (m : ViewManager) (cls : ViewControllerClass) (type : String)
    (h : type ∈ aliasGroup cls) : m.create type = m.construct cls (displayName cls) := by
  cases cls <;>
    simp [aliasGroup, legacyAliases, displayName, getClassNameStatic] at h <;>
    rcases h with rfl | rfl | rfl | rfl <;>
    simp [ViewManager.create, displayName]

theorem create_of_not_recognized (m : ViewManager) (type : String)
    (h : type ∉ recognizedIdentifiers) : m.create type = (none, m) := by
  rw [mem_recognizedIdentifiers] at h
  simp only [not_or] at h
  obtain ⟨⟨h1, h2⟩, ⟨h3, h4, h5, h6⟩, ⟨h7, h8⟩, h9, h10, h11⟩ := h
  simp [ViewManager.create, *]

theorem exists_class_of_recognized (type : String) (h : type ∈ recognizedIdentifiers) :
    ∃ cls, type ∈ aliasGroup cls := by
  simp only [recognizedIdentifiers, List.mem_flatMap] at h
  obtain ⟨cls, -, h⟩ := h
  exact ⟨cls, h⟩

/-! ### Pointers and the heap -/

theorem deref_isSome_iff (m : ViewManager) (view : Nat) :
    (m.deref view).isSome = true ↔ ∃ o ∈ m.objects, o.id = view := by
  simp [ViewManager.deref, List.find?_isSome]

theorem deref_id (m : ViewManager) (view : Nat) (o : ViewController)
    (h : m.deref view = some o) : o.id = view := by
  have := List.find?_some h
  simpa using this

theorem deref_mem (m : ViewManager) (view : Nat) (o : ViewController)
    (h : m.deref view = some o) : o ∈ m.objects :=
  List.mem_of_find?_eq_some h

theorem setCurrent_of_ne (m : ViewManager) (view : Nat) (b : Bool)
    (hne : m.current_view_ ≠ some view) (hlive : (m.deref view).isSome = true) :
    m.setCurrent view b = some (true,
      { objects := m.objects.map
          (fun o => if o.id = view then { o with target_frame := some m.target_frame } else o)
        next_id := m.next_id
        children := m.children
        current_view_ := some view
        types_ := m.types_
        connections :=
          (match b, m.current_view_ with
            | true, some cur => m.connections.filter (fun c => c ≠ cur)
            | _, _ => m.connections) ++ [view]
        panel_view := some view
        target_frame := m.target_frame
        trace := m.trace ++
          [Effect.setViewController view b, Effect.setTargetFrame view m.target_frame,
           Effect.signal (Signal.currentChanged view) (some view) (some view),
           Effect.signal Signal.configChanged (some view) (some view)] }) := by
  obtain ⟨o, ho⟩ := Option.isSome_iff_exists.mp hlive
  have hne2 : ¬ some view = m.current_view_ := fun h => hne h.symm
  cases b <;> cases hc : m.current_view_ <;>
    simp_all [ViewManager.setCurrent, ViewManager.setViewController, ViewManager.setTargetFrame,
      ViewManager.emit, ViewManager.deref]

theorem setCurrent_of_eq (m : ViewManager) (view : Nat) (b : Bool)
    (h : m.current_view_ = some view) : m.setCurrent view b = some (false, m) := by
  simp [ViewManager.setCurrent, h]

theorem map_setTargetFrame_fresh (l : List ViewController) (n : Nat) (frame : String)
    (h : ∀ o ∈ l, o.id < n) :
    l.map (fun o => if o.id = n then { o with target_frame := some frame } else o) = l := by
  induction l with
  | nil => rfl
  | cons a t ih =>
    have ha : a.id ≠ n := Nat.ne_of_lt (h a (List.mem_cons_self a t))
    simp [ha, ih (fun o ho => h o (List.mem_cons_of_mem a ho))]

theorem find_fresh_none (l : List ViewController) (n : Nat) (h : ∀ o ∈ l, o.id < n) :
    l.find? (fun o => o.id == n) = none := by
  simp only [List.find?_eq_none]
  intro o ho
  simpa using Nat.ne_of_lt (h o ho)

/-- The fallback step of `setCurrentViewControllerType` (the second `create`). -/
theorem switch_without_current (m : ViewManager) (type : String) (cls : ViewControllerClass)
    (name : String) (hcur : m.current_view_ = none)
    (hc : (if (m.create type).1 = none ∧ (m.create type).2.current_view_ = none
            then (m.create type).2.create "Orbit" else m.create type) = m.construct cls name)
    (hfresh : ∀ o ∈ m.objects, o.id < m.next_id) :
    m.setCurrentViewControllerType type = some (true,
      { objects := m.objects ++
          [{ id := m.next_id, cls := cls, name := name, target_frame := some m.target_frame }]
        next_id := m.next_id + 1
        children := m.children ++ [m.next_id]
        current_view_ := some m.next_id
        types_ := m.types_
        connections := m.connections ++ [m.next_id]
        panel_view := some m.next_id
        target_frame := m.target_frame
        trace := m.trace ++
          [Effect.constructed m.next_id cls name, Effect.addChild m.next_id m.children.length,
           Effect.setViewController m.next_id true,
           Effect.setTargetFrame m.next_id m.target_frame,
           Effect.signal (Signal.currentChanged m.next_id) (some m.next_id) (some m.next_id),
           Effect.signal Signal.configChanged (some m.next_id) (some m.next_id)] }) := by
  have hg : m.currentIsType type = some false := by simp [ViewManager.currentIsType, hcur]
  unfold ViewManager.setCurrentViewControllerType
  simp only [hg, hc]
  simp only [ViewManager.construct, ViewManager.add, ViewManager.addChild, hcur]
  rw [setCurrent_of_ne]
  · simp [map_setTargetFrame_fresh _ _ _ hfresh]
  · simp
  · simp [ViewManager.deref, List.find?_append, find_fresh_none _ _ hfresh]

theorem currentIsType_eq (m : ViewManager) (type : String) (cur : Nat) (o : ViewController)
    (hcur : m.current_view_ = some cur) (ho : m.deref cur = some o) :
    m.currentIsType type = some (decide (o.getClassName = type ∨ o.name = type)) := by
  simp [ViewManager.currentIsType, hcur, ho]

theorem emitDestroyed_zero (view : Nat) (m : ViewManager) :
    ViewManager.emitDestroyed view 0 m = some m := rfl

theorem count_filter_ne (l : List Nat) (a : Nat) :
    (l.filter (fun c => !decide (c = a))).count a = 0 := by
  rw [List.count_eq_zero]
  simp [List.mem_filter]

/-- The replacing step of `setCurrentViewControllerType`: a current view
exists, does not match, and the factory builds an object. -/
theorem switch_with_current (m : ViewManager) (type : String) (cls : ViewControllerClass)
    (name : String) (old : Nat) (o : ViewController)
    (hcur : m.current_view_ = some old) (ho : m.deref old = some o)
    (hno : ¬ (o.getClassName = type ∨ o.name = type))
    (hc : m.create type = m.construct cls name)
    (hfresh : ∀ o ∈ m.objects, o.id < m.next_id) :
    m.setCurrentViewControllerType type = some (true,
      { objects := m.objects.filter (fun o => o.id ≠ old) ++
          [{ id := m.next_id, cls := cls, name := name, target_frame := some m.target_frame }]
        next_id := m.next_id + 1
        children := m.children.filter (fun c => c ≠ old) ++ [m.next_id]
        current_view_ := some m.next_id
        types_ := m.types_
        connections := m.connections.filter (fun c => c ≠ old) ++ [m.next_id]
        panel_view := some m.next_id
        target_frame := m.target_frame
        trace := m.trace ++
          [Effect.constructed m.next_id cls name, Effect.addChild m.next_id m.children.length,
           Effect.initializeFrom m.next_id old,
           Effect.setViewController m.next_id true,
           Effect.setTargetFrame m.next_id m.target_frame,
           Effect.signal (Signal.currentChanged m.next_id) (some m.next_id) (some m.next_id),
           Effect.signal Signal.configChanged (some m.next_id) (some m.next_id),
           Effect.deleted old] }) := by
  have hg : m.currentIsType type = some false := by
    rw [currentIsType_eq m type old o hcur ho]; simp [hno]
  have hold : old < m.next_id := by
    have := hfresh o (deref_mem m old o ho)
    rwa [deref_id m old o ho] at this
  have hne : m.next_id ≠ old := Nat.ne_of_gt hold
  have hne2 : old ≠ m.next_id := Nat.ne_of_lt hold
  have ho2 : m.objects.find? (fun o => o.id == old) = some o := ho
  have hc2 : (if (m.create type).1 = none ∧ (m.create type).2.current_view_ = none
      then (m.create type).2.create "Orbit" else m.create type) = m.construct cls name := by
    rw [hc]; simp [ViewManager.construct]
  unfold ViewManager.setCurrentViewControllerType
  simp only [hg, hc2]
  simp only [ViewManager.construct, ViewManager.add, ViewManager.addChild, ViewManager.initializeFrom, hcur]
  rw [setCurrent_of_ne]
  · simp [map_setTargetFrame_fresh _ _ _ hfresh, ViewManager.deleteView, ViewManager.deref,
      List.find?_append, ho2, hne, hne2, emitDestroyed_zero, count_filter_ne]
  · simp [hcur, hne2]
  · simp [ViewManager.deref, List.find?_append, find_fresh_none _ _ hfresh]

theorem switch_no_build (m : ViewManager) (type : String) (old : Nat) (o : ViewController)
    (hcur : m.current_view_ = some old) (ho : m.deref old = some o)
    (hno : ¬ (o.getClassName = type ∨ o.name = type))
    (hc : m.create type = (none, m)) :
    m.setCurrentViewControllerType type = some (false, m) := by
  have hg : m.currentIsType type = some false := by
    rw [currentIsType_eq m type old o hcur ho]; simp [hno]
  unfold ViewManager.setCurrentViewControllerType
  simp [hg, hc, hcur]

theorem switch_same (m : ViewManager) (type : String) (cur : Nat) (o : ViewController)
    (hcur : m.current_view_ = some cur) (ho : m.deref cur = some o)
    (h : o.getClassName = type ∨ o.name = type) :
    m.setCurrentViewControllerType type = some (true, m) := by
  have hg : m.currentIsType type = some true := by
    rw [currentIsType_eq m type cur o hcur ho]; simp [h]
  unfold ViewManager.setCurrentViewControllerType
  simp [hg]

/-- What the factory step of `setCurrentViewControllerType` builds: the
requested class when the identifier is recognized, else (no current view) the
default `Orbit`. -/
theorem fallback_create (m : ViewManager) (type : String) (hcur : m.current_view_ = none) :
    ∃ cls, (if (m.create type).1 = none ∧ (m.create type).2.current_view_ = none
            then (m.create type).2.create "Orbit" else m.create type)
        = m.construct cls (displayName cls) ∧
      ((m.create type).1 = none → cls = .OrbitViewController) ∧
      ((m.create type).1 ≠ none → m.create type = m.construct cls (displayName cls)) := by
  by_cases hr : type ∈ recognizedIdentifiers
  · obtain ⟨cls, hcls⟩ := exists_class_of_recognized type hr
    have hc := create_of_mem_aliasGroup m cls type hcls
    refine ⟨cls, ?_, ?_, fun _ => hc⟩
    · rw [hc]; simp [ViewManager.construct]
    · rw [hc]; simp [ViewManager.construct]
  · have hc := create_of_not_recognized m type hr
    refine ⟨.OrbitViewController, ?_, fun _ => rfl, ?_⟩
    · rw [hc]; simp [hcur, ViewManager.create, displayName]
    · rw [hc]; simp

/-! ### Well-formedness -/

theorem WF_new (target_frame : String) : (ViewManager.new target_frame).WF := by
  simp [ViewManager.WF, ViewManager.new]

theorem initialize_new : ViewManager.initialize (ViewManager.new "map") = some seeded := by
  decide

theorem WF_seeded : seeded.WF := by
  simp [ViewManager.WF, seeded, ViewManager.deref]

theorem WF_fresh (m : ViewManager) (h : m.WF) : ∀ o ∈ m.objects, o.id < m.next_id := h.1

theorem WF_current (m : ViewManager) (h : m.WF) (cur : Nat) (hcur : m.current_view_ = some cur) :
    ∃ o, m.deref cur = some o :=
  Option.isSome_iff_exists.mp (h.2.2.1 cur (by simp [hcur]))

/-- A heap extended by one freshly allocated object that becomes the current
view and the last child stays well-formed. -/
theorem WF_append_new (m : ViewManager) (objs : List ViewController) (n : Nat)
    (new : ViewController) (children : List Nat)
    (hfresh : ∀ o ∈ objs, o.id < n) (hnodup : (objs.map (fun o => o.id)).Nodup)
    (hnew : new.id = n) (hch : ∀ c ∈ children, ∃ o ∈ objs, o.id = c)
    (hobjs : m.objects = objs ++ [new]) (hnext : m.next_id = n + 1)
    (hchildren : m.children = children ++ [n]) (hcur : m.current_view_ = some n) : m.WF := by
  refine ⟨?_, ?_, ?_, ?_⟩
  · intro o ho
    rw [hobjs, List.mem_append, List.mem_singleton] at ho
    rw [hnext]
    rcases ho with ho | rfl
    · exact Nat.lt_succ_of_lt (hfresh o ho)
    · omega
  · rw [hobjs, List.map_append, List.nodup_append]
    refine ⟨hnodup, by simp, ?_⟩
    intro a ha hb
    simp only [List.map_cons, List.map_nil, List.mem_singleton] at hb
    obtain ⟨o, ho, rfl⟩ := List.mem_map.mp ha
    have := hfresh o ho
    omega
  · intro c hc
    rw [hcur] at hc
    obtain rfl : n = c := by simpa using hc
    rw [deref_isSome_iff]
    exact ⟨new, by simp [hobjs], hnew⟩
  · intro c hc
    rw [hchildren, List.mem_append, List.mem_singleton] at hc
    rw [deref_isSome_iff]
    rcases hc with hc | rfl
    · obtain ⟨o, ho, hoc⟩ := hch c hc
      exact ⟨o, by simp [hobjs, ho], hoc⟩
    · exact ⟨new, by simp [hobjs], hnew⟩

theorem deref_append_new (m : ViewManager) (objs : List ViewController) (n : Nat)
    (new : ViewController) (hfresh : ∀ o ∈ objs, o.id < n) (hnew : new.id = n)
    (hobjs : m.objects = objs ++ [new]) : m.deref n = some new := by
  simp [ViewManager.deref, hobjs, List.find?_append, find_fresh_none _ _ hfresh, hnew]

theorem currentIsType_false (m : ViewManager) (type : String) (old : Nat)
    (hcur : m.current_view_ = some old) (hg : m.currentIsType type = some false) :
    ∃ o, m.deref old = some o ∧ ¬ (o.getClassName = type ∨ o.name = type) := by
  cases ho : m.deref old with
  | none => simp [ViewManager.currentIsType, hcur, ho] at hg
  | some o =>
    refine ⟨o, rfl, ?_⟩
    rw [currentIsType_eq m type old o hcur ho] at hg
    simpa using hg

/-- A switch that builds: the guard does not fire and the factory step yields
an object of class `cls`.  The new object is the last child, the current view
and the render panel's controller; the previous current view, if any, is gone. -/
theorem switch_builds (m : ViewManager) (type : String) (cls : ViewControllerClass)
    (hwf : m.WF) (hg : m.currentIsType type = some false)
    (hc : (if (m.create type).1 = none ∧ (m.create type).2.current_view_ = none
            then (m.create type).2.create "Orbit" else m.create type)
        = m.construct cls (displayName cls)) :
    ∃ m1, m.setCurrentViewControllerType type = some (true, m1) ∧ m1.WF ∧
      m1.current_view_ = some m.next_id ∧
      m1.deref m.next_id = some { id := m.next_id, cls := cls, name := displayName cls,
                                  target_frame := some m.target_frame } ∧
      m1.next_id = m.next_id + 1 ∧
      m1.children = (match m.current_view_ with
        | none => m.children
        | some old => m.children.filter (fun c => c ≠ old)) ++ [m.next_id] ∧
      m1.objects = (match m.current_view_ with
        | none => m.objects
        | some old => m.objects.filter (fun o => o.id ≠ old)) ++
          [{ id := m.next_id, cls := cls, name := displayName cls,
             target_frame := some m.target_frame }] ∧
      m1.panel_view = some m.next_id ∧ m1.target_frame = m.target_frame ∧
      m1.types_ = m.types_ := by
  obtain ⟨hfresh, hnodup, -, hchildren⟩ := hwf
  cases hcur : m.current_view_ with
  | none =>
    refine ⟨_, switch_without_current m type cls _ hcur hc hfresh, ?_, rfl, ?_, rfl, rfl, rfl,
      rfl, rfl, rfl⟩
    · exact WF_append_new _ m.objects m.next_id _ m.children hfresh hnodup rfl
        (fun c hc => (deref_isSome_iff m c).mp (hchildren c hc)) rfl rfl rfl rfl
    · exact deref_append_new _ m.objects m.next_id _ hfresh rfl rfl
  | some old =>
    obtain ⟨o, ho, hno⟩ := currentIsType_false m type old hcur hg
    have hc2 : m.create type = m.construct cls (displayName cls) := by
      rw [← hc]
      by_cases hr : type ∈ recognizedIdentifiers
      · obtain ⟨k, hk⟩ := exists_class_of_recognized type hr
        rw [create_of_mem_aliasGroup m k type hk]; simp [ViewManager.construct]
      · rw [create_of_not_recognized m type hr]; simp [hcur]
    have hfresh2 : ∀ o ∈ m.objects.filter (fun o => o.id ≠ old), o.id < m.next_id :=
      fun o ho => hfresh o (List.mem_of_mem_filter ho)
    refine ⟨_, switch_with_current m type cls _ old o hcur ho hno hc2 hfresh, ?_, rfl, ?_, rfl,
      rfl, rfl, rfl, rfl, rfl⟩
    · refine WF_append_new _ (m.objects.filter (fun o => o.id ≠ old)) m.next_id _
        (m.children.filter (fun c => c ≠ old)) hfresh2 ?_ rfl ?_ rfl rfl rfl rfl
      · exact hnodup.sublist (List.Sublist.map _ (List.filter_sublist _))
      · intro c hc
        obtain ⟨hc1, hc2⟩ := List.mem_filter.mp hc
        obtain ⟨o, ho, hoc⟩ := (deref_isSome_iff m c).mp (hchildren c hc1)
        exact ⟨o, List.mem_filter.mpr ⟨ho, by simpa [hoc] using hc2⟩, hoc⟩
    · exact deref_append_new _ _ m.next_id _ hfresh2 rfl rfl

/-- Every call of `setCurrentViewControllerType` on a well-formed state returns. -/
theorem switch_total (m : ViewManager) (type : String) (hwf : m.WF) :
    ∃ r, m.setCurrentViewControllerType type = some r := by
  cases hcur : m.current_view_ with
  | none =>
    obtain ⟨cls, hc, -, -⟩ := fallback_create m type hcur
    obtain ⟨m1, h, -⟩ := switch_builds m type cls hwf
      (by simp [ViewManager.currentIsType, hcur]) hc
    exact ⟨_, h⟩
  | some cur =>
    obtain ⟨o, ho⟩ := WF_current m hwf cur hcur
    by_cases hm : o.getClassName = type ∨ o.name = type
    · exact ⟨_, switch_same m type cur o hcur ho hm⟩
    · by_cases hr : type ∈ recognizedIdentifiers
      · obtain ⟨cls, hcls⟩ := exists_class_of_recognized type hr
        exact ⟨_, switch_with_current m type cls _ cur o hcur ho hm
          (create_of_mem_aliasGroup m cls type hcls) hwf.1⟩
      · exact ⟨_, switch_no_build m type cur o hcur ho hm (create_of_not_recognized m type hr)⟩

theorem createdClass_of_mem_aliasGroup (m : ViewManager) (cls : ViewControllerClass)
    (type : String) (h : type ∈ aliasGroup cls) (hfresh : ∀ o ∈ m.objects, o.id < m.next_id) :
    m.createdClass type = some cls := by
  have hd : (m.construct cls (displayName cls)).2.deref m.next_id =
      some { id := m.next_id, cls := cls, name := displayName cls, target_frame := none } :=
    deref_append_new _ m.objects m.next_id _ hfresh rfl rfl
  unfold ViewManager.createdClass
  rw [create_of_mem_aliasGroup m cls type h]
  show Option.map _ ((m.construct cls (displayName cls)).2.deref m.next_id) = _
  rw [hd]; rfl

theorem createdClass_of_not_recognized (m : ViewManager) (type : String)
    (h : type ∉ recognizedIdentifiers) : m.createdClass type = none := by
  unfold ViewManager.createdClass
  rw [create_of_not_recognized m type h]

theorem WF_next_id_not_child (m : ViewManager) (hwf : m.WF) : m.next_id ∉ m.children := by
  intro hmem
  obtain ⟨o, ho, hoc⟩ := (deref_isSome_iff m _).mp (hwf.2.2.2 _ hmem)
  have := hwf.1 o ho
  omega

/-! ### Store positions -/

theorem insert_after_positions (pre post : List Nat) (cur new : Nat) :
    (∀ j, j ≤ pre.length → (pre ++ cur :: new :: post).get? j = (pre ++ cur :: post).get? j) ∧
    (pre ++ cur :: new :: post).get? (pre.length + 1) = some new ∧
    (∀ j, pre.length < j → (pre ++ cur :: new :: post).get? (j + 1) = (pre ++ cur :: post).get? j) := by
  refine ⟨?_, ?_, ?_⟩
  · intro j hj
    simp only [List.get?_eq_getElem?]
    rcases Nat.lt_or_eq_of_le hj with h | rfl
    · rw [List.getElem?_append_left h, List.getElem?_append_left h]
    · rw [List.getElem?_append_right (Nat.le_refl _),
        List.getElem?_append_right (Nat.le_refl _)]
      simp
  · simp only [List.get?_eq_getElem?]
    rw [List.getElem?_append_right (by omega)]
    simp
  · intro j hj
    simp only [List.get?_eq_getElem?]
    rw [List.getElem?_append_right (by omega), List.getElem?_append_right (by omega)]
    obtain ⟨k, rfl⟩ : ∃ k, j = pre.length + 1 + k := ⟨j - pre.length - 1, by omega⟩
    have e1 : pre.length + 1 + k + 1 - pre.length = k + 2 := by omega
    have e2 : pre.length + 1 + k - pre.length = k + 1 := by omega
    rw [e1, e2]
    simp [List.getElem?_cons_succ]

theorem indexOf_append_cons (pre post : List Nat) (cur : Nat) (h : cur ∉ pre) :
    (pre ++ cur :: post).indexOf cur = pre.length := by
  induction pre with
  | nil => simp
  | cons a t ih =>
    have ha : a ≠ cur := fun e => h (by simp [e])
    have ht : cur ∉ t := fun e => h (by simp [e])
    simp [List.indexOf_cons, ha, ih ht]

theorem map_setName_fresh (l : List ViewController) (n : Nat) (name : String)
    (h : ∀ o ∈ l, o.id < n) :
    l.map (fun o => if o.id = n then { o with name := name } else o) = l := by
  induction l with
  | nil => rfl
  | cons a t ih =>
    have ha : a.id ≠ n := Nat.ne_of_lt (h a (List.mem_cons_self a t))
    simp [ha, ih (fun o ho => h o (List.mem_cons_of_mem a ho))]

/-! ### The claims -/

/-- C4: the factory `create` returns no instance (NULL) exactly for the type
strings that are not among its recognized identifiers, and then leaves the
state untouched: no default type is substituted.  For every recognized
identifier it returns a newly allocated instance, which did not exist before
and is live afterwards. -/
theorem create_none_iff_not_recognized (m : ViewManager) (type : String) :
    ((m.create type).1 = none ↔ type ∉ recognizedIdentifiers) ∧
    (type ∉ recognizedIdentifiers → m.create type = (none, m)) ∧
    (type ∈ recognizedIdentifiers →
      ∃ cls, type ∈ aliasGroup cls ∧ (m.create type).1 = some m.next_id ∧
        (m.create type).2.objects = m.objects ++
          [{ id := m.next_id, cls := cls, name := displayName cls, target_frame := none }] ∧
        ((∀ o ∈ m.objects, o.id < m.next_id) →
          m.deref m.next_id = none ∧
          (m.create type).2.deref m.next_id =
            some { id := m.next_id, cls := cls, name := displayName cls,
                   target_frame := none })) := by
  have hrec : type ∈ recognizedIdentifiers →
      ∃ cls, type ∈ aliasGroup cls ∧ m.create type = m.construct cls (displayName cls) := by
    intro hr
    obtain ⟨cls, hcls⟩ := exists_class_of_recognized type hr
    exact ⟨cls, hcls, create_of_mem_aliasGroup m cls type hcls⟩
  refine ⟨?_, create_of_not_recognized m type, ?_⟩
  · constructor
    · intro hnone hr
      obtain ⟨cls, -, hc⟩ := hrec hr
      rw [hc] at hnone
      simp [ViewManager.construct] at hnone
    · intro hr
      rw [create_of_not_recognized m type hr]
  · intro hr
    obtain ⟨cls, hcls, hc⟩ := hrec hr
    refine ⟨cls, hcls, by rw [hc]; rfl, by rw [hc]; rfl, ?_⟩
    intro hfresh
    refine ⟨find_fresh_none _ _ hfresh, ?_⟩
    rw [hc]
    exact deref_append_new _ m.objects m.next_id _ hfresh rfl rfl

/-- C5: for each of the four concrete controllers, `create` maps every string
of its alias group (the canonical class identifier, the short display alias
and the legacy aliases "rviz::SimpleOrbitViewController", "SimpleOrbit",
"Top-down Orthographic") to a new object of that concrete class carrying the
class's display name; the objects built from any two strings of one group, in
any two states, differ only in identity. -/
theorem create_alias_group (m : ViewManager) (cls : ViewControllerClass) (type : String)
    (h : type ∈ aliasGroup cls) :
    m.create type =
      (some m.next_id,
       { m with
         objects := m.objects ++
           [{ id := m.next_id, cls := cls, name := displayName cls, target_frame := none }]
         next_id := m.next_id + 1
         trace := m.trace ++ [Effect.constructed m.next_id cls (displayName cls)] }) ∧
    ∀ (m2 : ViewManager) (type2 : String), type2 ∈ aliasGroup cls →
      ∃ o1 o2, (m.create type).2.objects = m.objects ++ [o1] ∧
        (m2.create type2).2.objects = m2.objects ++ [o2] ∧
        o1.cls = cls ∧ o1.name = displayName cls ∧ { o1 with id := o2.id } = o2 := by
  refine ⟨create_of_mem_aliasGroup m cls type h, ?_⟩
  intro m2 type2 h2
  rw [create_of_mem_aliasGroup m cls type h, create_of_mem_aliasGroup m2 cls type2 h2]
  exact ⟨_, _, rfl, rfl, rfl, rfl, rfl⟩

theorem create_alias_group_witness :
    "rviz::SimpleOrbitViewController" ∈ aliasGroup .XYOrbitViewController ∧
    (seeded.create "rviz::SimpleOrbitViewController").1 = some 1 ∧
    (seeded.create "rviz::SimpleOrbitViewController").2.objects =
      [{ id := 0, cls := .OrbitViewController, name := "Orbit", target_frame := some "map" },
       { id := 1, cls := .XYOrbitViewController, name := "XYOrbit", target_frame := none }] := by
  have h := (create_alias_group seeded .XYOrbitViewController "rviz::SimpleOrbitViewController"
    (by decide)).1
  exact ⟨by decide, by rw [h]; rfl, by rw [h]; rfl⟩

/-- The alias groups are exactly the strings the claim names. -/
theorem aliasGroup_eq :
    aliasGroup .OrbitViewController = ["rviz::OrbitViewController", "Orbit"] ∧
    aliasGroup .XYOrbitViewController =
      ["rviz::XYOrbitViewController", "XYOrbit", "rviz::SimpleOrbitViewController",
       "SimpleOrbit"] ∧
    aliasGroup .FPSViewController = ["rviz::FPSViewController", "FPS"] ∧
    aliasGroup .FixedOrientationOrthoViewController =
      ["rviz::FixedOrientationOrthoViewController", "TopDownOrtho", "Top-down Orthographic"] :=
  ⟨rfl, rfl, rfl, rfl⟩

/-- C8: when a current view exists and the type string equals its class
identifier or its display name (whatever the user made of it), then
`setCurrentViewControllerType` returns true and the state is unchanged: no
object is constructed, the store, the current view and the render panel's
controller stay as they were, and nothing is added to the trace (no
notification). -/
theorem setCurrentViewControllerType_same_type (m : ViewManager) (type : String) (cur : Nat)
    (o : ViewController) (hcur : m.current_view_ = some cur) (ho : m.deref cur = some o)
    (h : o.getClassName = type ∨ o.name = type) :
    m.setCurrentViewControllerType type = some (true, m) :=
  switch_same m type cur o hcur ho h

theorem setCurrentViewControllerType_same_type_witness :
    seededRenamed.current_view_ = some 0 ∧
    seededRenamed.deref 0 =
      some { id := 0, cls := .OrbitViewController, name := "Front",
             target_frame := some "map" } ∧
    seededRenamed.setCurrentViewControllerType "Front" = some (true, seededRenamed) :=
  ⟨rfl, rfl,
   setCurrentViewControllerType_same_type seededRenamed "Front" 0
     { id := 0, cls := .OrbitViewController, name := "Front", target_frame := some "map" }
     rfl rfl (Or.inr rfl)⟩

/-- C6: on a well-formed state `setCurrentViewControllerType(T)` returns, and
it returns false exactly when a current view exists, `T` equals neither the
current view's class identifier nor its display name, and `create(T)` yields no
instance; in that case the whole state is unchanged (store, current view,
render panel's controller, trace: nothing is emitted). -/
theorem setCurrentViewControllerType_false_iff (m : ViewManager) (type : String)
    (hwf : m.WF) :
    ∃ r, m.setCurrentViewControllerType type = some r ∧
      (r.1 = false ↔
        ∃ cur o, m.current_view_ = some cur ∧ m.deref cur = some o ∧
          o.getClassName ≠ type ∧ o.name ≠ type ∧ (m.create type).1 = none) ∧
      (r.1 = false → r.2 = m) := by
  cases hcur : m.current_view_ with
  | none =>
    obtain ⟨cls, hc, -, -⟩ := fallback_create m type hcur
    obtain ⟨m1, h, -⟩ := switch_builds m type cls hwf
      (by simp [ViewManager.currentIsType, hcur]) hc
    exact ⟨_, h, by simp, by simp⟩
  | some cur =>
    obtain ⟨o, ho⟩ := WF_current m hwf cur hcur
    by_cases hm : o.getClassName = type ∨ o.name = type
    · refine ⟨_, switch_same m type cur o hcur ho hm, ?_, by simp⟩
      simp only [Bool.true_eq_false, false_iff, not_exists, not_and]
      intro cur2 o2 h1 h2 h3 h4
      obtain rfl : cur = cur2 := by simpa using h1
      rw [ho] at h2
      obtain rfl : o = o2 := by simpa using h2
      rcases hm with hm | hm
      · exact absurd hm h3
      · exact absurd hm h4
    · by_cases hr : type ∈ recognizedIdentifiers
      · obtain ⟨cls, hcls⟩ := exists_class_of_recognized type hr
        have hc := create_of_mem_aliasGroup m cls type hcls
        refine ⟨_, switch_with_current m type cls _ cur o hcur ho hm hc hwf.1, ?_, by simp⟩
        simp only [Bool.true_eq_false, false_iff, not_exists, not_and]
        intro cur2 o2 _ _ _ _
        rw [hc]
        simp [ViewManager.construct]
      · have hc := create_of_not_recognized m type hr
        refine ⟨_, switch_no_build m type cur o hcur ho hm hc, ?_, fun _ => rfl⟩
        simp only [true_iff]
        rw [not_or] at hm
        exact ⟨cur, o, rfl, ho, hm.1, hm.2, by rw [hc]⟩

theorem setCurrentViewControllerType_false_iff_witness :
    seeded.WF ∧ seeded.setCurrentViewControllerType "Teleport" = some (false, seeded) := by
  refine ⟨WF_seeded, ?_⟩
  obtain ⟨r, hr, hiff, hsame⟩ := setCurrentViewControllerType_false_iff seeded "Teleport" WF_seeded
  have hfalse : r.1 = false :=
    hiff.mpr ⟨0, { id := 0, cls := .OrbitViewController, name := "Orbit",
                   target_frame := some "map" }, rfl, rfl, by decide, by decide, by decide⟩
  rw [hr]
  obtain ⟨b, m1⟩ := r
  simp only at hfalse hsame
  rw [hfalse, hsame hfalse]

/-- C7 (bootstrap fallback): on a well-formed state with no current view,
`setCurrentViewControllerType(T)` returns true for every `T`, appends exactly
one new object to the store and makes it current; the object has the class
`create(T)` builds when `T` is recognized and the default class `Orbit` when it
is not.  When a current view exists, an unrecognized `T` changes nothing (in
particular no default object is built). -/
theorem setCurrentViewControllerType_bootstrap (m : ViewManager) (type : String)
    (hwf : m.WF) :
    (m.current_view_ = none →
      ∃ m1 o1, m.setCurrentViewControllerType type = some (true, m1) ∧
        m.next_id ∉ m.children ∧ m.deref m.next_id = none ∧
        m1.children = m.children ++ [m.next_id] ∧
        m1.objects = m.objects ++ [o1] ∧
        m1.current_view_ = some m.next_id ∧
        m1.deref m.next_id = some o1 ∧
        (type ∈ recognizedIdentifiers → m.createdClass type = some o1.cls) ∧
        (type ∉ recognizedIdentifiers → o1.cls = .OrbitViewController)) ∧
    (∀ cur, m.current_view_ = some cur → type ∉ recognizedIdentifiers →
      ∃ b, m.setCurrentViewControllerType type = some (b, m)) := by
  constructor
  · intro hcur
    obtain ⟨cls, hc, hnone, hsome⟩ := fallback_create m type hcur
    obtain ⟨m1, h, -, h1, h2, -, h3, h4, -⟩ := switch_builds m type cls hwf
      (by simp [ViewManager.currentIsType, hcur]) hc
    rw [hcur] at h3 h4
    refine ⟨m1, _, h, WF_next_id_not_child m hwf, find_fresh_none _ _ hwf.1, h3, h4, h1, h2,
      ?_, ?_⟩
    · intro hr
      obtain ⟨k, hk⟩ := exists_class_of_recognized type hr
      have hck := create_of_mem_aliasGroup m k type hk
      have hne : (m.create type).1 ≠ none := by rw [hck]; simp [ViewManager.construct]
      have heq := (hsome hne).symm.trans hck
      have hcls : cls = k := by
        have := congrArg (fun r => r.2.objects.getLast?.map (fun o => o.cls)) heq
        simpa [ViewManager.construct] using this
      rw [createdClass_of_mem_aliasGroup m k type hk hwf.1, hcls]
    · intro hr
      exact hnone (by rw [create_of_not_recognized m type hr])
  · intro cur hcur hr
    obtain ⟨o, ho⟩ := WF_current m hwf cur hcur
    by_cases hm : o.getClassName = type ∨ o.name = type
    · exact ⟨true, switch_same m type cur o hcur ho hm⟩
    · exact ⟨false, switch_no_build m type cur o hcur ho hm (create_of_not_recognized m type hr)⟩

theorem setCurrentViewControllerType_bootstrap_witness :
    (ViewManager.new "map").WF ∧
    ∃ m1 o1, (ViewManager.new "map").setCurrentViewControllerType "Teleport" = some (true, m1) ∧
      m1.children = [0] ∧ m1.objects = [o1] ∧ m1.current_view_ = some 0 ∧
      o1.cls = .OrbitViewController := by
  refine ⟨WF_new "map", ?_⟩
  obtain ⟨m1, o1, h, -, -, h1, h2, h3, -, -, h4⟩ :=
    (setCurrentViewControllerType_bootstrap (ViewManager.new "map") "Teleport" (WF_new "map")).1
      rfl
  exact ⟨m1, o1, h, h1, h2, h3, h4 (by decide)⟩

/-- C9 (successful switch): on a well-formed state whose store holds exactly
the current view, for a recognized type `T` that matches neither the current
view's class identifier nor its display name, `setCurrentViewControllerType(T)`
returns true and leaves a store of the same size, holding exactly one new
object, which is the current view and has the class `create(T)` builds; the old
current object is neither in the store nor live any more. -/
theorem setCurrentViewControllerType_switch (m : ViewManager) (type : String) (old : Nat)
    (o : ViewController) (hwf : m.WF) (hstore : m.children = [old])
    (hcur : m.current_view_ = some old) (ho : m.deref old = some o)
    (hno : o.getClassName ≠ type ∧ o.name ≠ type) (hrec : type ∈ recognizedIdentifiers) :
    ∃ m1 new o1, m.setCurrentViewControllerType type = some (true, m1) ∧
      m1.children = [new] ∧ m1.children.length = m.children.length ∧
      new ≠ old ∧ old ∉ m1.children ∧ m1.deref old = none ∧
      m1.current_view_ = some new ∧ m1.deref new = some o1 ∧
      m.createdClass type = some o1.cls := by
  obtain ⟨cls, hcls⟩ := exists_class_of_recognized type hrec
  have hc := create_of_mem_aliasGroup m cls type hcls
  have hg : m.currentIsType type = some false := by
    rw [currentIsType_eq m type old o hcur ho]; simp [hno.1, hno.2]
  have hold : old < m.next_id := by
    have := hwf.1 o (deref_mem m old o ho)
    rwa [deref_id m old o ho] at this
  have hne : m.next_id ≠ old := Nat.ne_of_gt hold
  obtain ⟨m1, h, -, h1, h2, -, h3, h4, -⟩ := switch_builds m type cls hwf hg
    (by rw [hc]; simp [ViewManager.construct])
  rw [hcur] at h3 h4
  have hch : m1.children = [m.next_id] := by rw [h3, hstore]; simp
  refine ⟨m1, m.next_id, _, h, hch, by rw [hch, hstore]; rfl, hne, by rw [hch]; simpa using hne.symm,
    ?_, h1, h2, createdClass_of_mem_aliasGroup m cls type hcls hwf.1⟩
  simp only [ViewManager.deref, h4, List.find?_append, List.find?_eq_none.mpr, Option.or_eq_none]
  constructor
  · rw [List.find?_eq_none]
    intro x hx
    simpa using (List.mem_filter.mp hx).2
  · simp [hne]

theorem setCurrentViewControllerType_switch_witness :
    seeded.WF ∧ "FPS" ∈ recognizedIdentifiers ∧
    ∃ m1 new o1, seeded.setCurrentViewControllerType "FPS" = some (true, m1) ∧
      m1.children = [new] ∧ m1.current_view_ = some new ∧ m1.deref new = some o1 ∧
      seeded.createdClass "FPS" = some o1.cls ∧ m1.deref 0 = none := by
  refine ⟨WF_seeded, by decide, ?_⟩
  obtain ⟨m1, new, o1, h, h1, -, -, -, h2, h3, h4, h5⟩ :=
    setCurrentViewControllerType_switch seeded "FPS" 0
      { id := 0, cls := .OrbitViewController, name := "Orbit", target_frame := some "map" }
      WF_seeded rfl rfl rfl (by decide) (by decide)
  exact ⟨m1, new, o1, h, h1, h3, h4, h5, h2⟩

/-- The scenario of C9 evaluated: current Orbit, `T = "FPS"` gives a store of
size one whose only entry is the current view, an FPS controller. -/
theorem switch_orbit_to_fps :
    (seeded.setCurrentViewControllerType "FPS").map
        (fun r => (r.1, r.2.children, r.2.current_view_, r.2.panel_view, r.2.objects)) =
      some (true, [1], some 1, some 1,
        [{ id := 1, cls := .FPSViewController, name := "FPS", target_frame := some "map" }]) := by
  decide

/-- The state `copyCurrent` leaves, for a live current view `cur` whose first
occurrence in the store is at position `pre.length`. -/
theorem copyCurrent_eq (m : ViewManager) (cur : Nat) (o : ViewController)
    (pre post : List Nat) (hfresh : ∀ o ∈ m.objects, o.id < m.next_id)
    (hcur : m.current_view_ = some cur) (ho : m.deref cur = some o)
    (hstore : m.children = pre ++ cur :: post) (hpre : cur ∉ pre) :
    m.copyCurrent = some
    { objects := m.objects ++
        [{ id := m.next_id, cls := o.cls, name := "Copy of " ++ o.name,
           target_frame := some m.target_frame }]
      next_id := m.next_id + 1
      children := pre ++ cur :: m.next_id :: post
      current_view_ := some m.next_id
      types_ := m.types_
      connections := m.connections.filter (fun c => c ≠ cur) ++ [m.next_id]
      panel_view := some m.next_id
      target_frame := m.target_frame
      trace := m.trace ++
        [Effect.copied m.next_id o.id, Effect.addChild m.next_id (pre.length + 1),
         Effect.setViewController m.next_id true,
         Effect.setTargetFrame m.next_id m.target_frame,
         Effect.signal (Signal.currentChanged m.next_id) (some m.next_id) (some m.next_id),
         Effect.signal Signal.configChanged (some m.next_id) (some m.next_id)] } := by
  have hold : cur < m.next_id := by
    have := hfresh o (deref_mem m cur o ho)
    rwa [deref_id m cur o ho] at this
  have hne : cur ≠ m.next_id := Nat.ne_of_lt hold
  have hrow : (pre ++ cur :: post).indexOf cur = pre.length :=
    indexOf_append_cons pre post cur hpre
  have hidx : ¬ ((pre.length : Int) + 1 < 0 ∨
      ((pre.length + (post.length + 1) : Nat) : Int) < (pre.length : Int) + 1) := by
    push_cast; omega
  have htoNat : ((pre.length : Int) + 1).toNat = pre.length + 1 := by omega
  have hname : (m.copy o).2.setName m.next_id ("Copy of " ++ o.name) = some
      { m with
        objects := m.objects ++
          [{ id := m.next_id, cls := o.cls, name := "Copy of " ++ o.name,
             target_frame := o.target_frame }]
        next_id := m.next_id + 1
        trace := m.trace ++ [Effect.copied m.next_id o.id] } := by
    simp [ViewManager.copy, ViewManager.setName, ViewManager.deref, List.find?_append,
      find_fresh_none _ _ hfresh, map_setName_fresh _ _ _ hfresh]
  unfold ViewManager.copyCurrent
  simp only [hcur, ho]
  rw [show (m.copy o).1 = m.next_id from rfl, hname]
  simp only [ViewManager.rowNumberInParent, hstore, hrow, List.mem_append, List.mem_cons,
    true_or, or_true, if_true, ViewManager.add, ViewManager.addChild, List.length_append, List.length_cons, hidx,
    if_false, htoNat]
  rw [setCurrent_of_ne]
  · simp [map_setTargetFrame_fresh _ _ _ hfresh, List.take_append_eq_append_take,
      List.drop_append_eq_append_drop, hcur,
      List.take_of_length_le (Nat.le_succ pre.length),
      List.drop_of_length_le (Nat.le_succ pre.length)]
  · simp [hcur, hne]
  · simp [ViewManager.deref, List.find?_append, find_fresh_none _ _ hfresh]

/-- C10: on a well-formed state whose current view sits at store position
`pre.length` (the store is `pre ++ cur :: post`), `copyCurrent` allocates
exactly one new object, of the class of the original and named "Copy of "
followed by the original's display name, inserts it right after the original
(earlier entries keep their positions, later ones shift by one) and makes it
the current view and the render panel's controller. -/
theorem copyCurrent_inserts_after (m : ViewManager) (cur : Nat) (o : ViewController)
    (pre post : List Nat) (hwf : m.WF) (hcur : m.current_view_ = some cur)
    (ho : m.deref cur = some o) (hstore : m.children = pre ++ cur :: post)
    (hpre : cur ∉ pre) :
    ∃ m1, m.copyCurrent = some m1 ∧
      m.next_id ∉ m.children ∧ m.deref m.next_id = none ∧
      m1.children = pre ++ cur :: m.next_id :: post ∧
      (∀ j, j ≤ pre.length → m1.children.get? j = m.children.get? j) ∧
      m1.children.get? (pre.length + 1) = some m.next_id ∧
      (∀ j, pre.length < j → m1.children.get? (j + 1) = m.children.get? j) ∧
      m1.objects = m.objects ++
        [{ id := m.next_id, cls := o.cls, name := "Copy of " ++ o.name,
           target_frame := some m.target_frame }] ∧
      m1.deref m.next_id =
        some { id := m.next_id, cls := o.cls, name := "Copy of " ++ o.name,
               target_frame := some m.target_frame } ∧
      m1.current_view_ = some m.next_id ∧ m1.panel_view = some m.next_id := by
  have hfresh := hwf.1
  have hcopy := copyCurrent_eq m cur o pre post hfresh hcur ho hstore hpre
  obtain ⟨p1, p2, p3⟩ := insert_after_positions pre post cur m.next_id
  refine ⟨_, hcopy, WF_next_id_not_child m hwf, find_fresh_none _ _ hfresh, rfl, ?_, p2, ?_, rfl,
    ?_, rfl, rfl⟩
  · intro j hj; rw [hstore]; exact p1 j hj
  · intro j hj; rw [hstore]; exact p3 j hj
  · exact deref_append_new _ m.objects m.next_id _ hfresh rfl rfl

theorem copyCurrent_inserts_after_witness :
    seeded.WF ∧
    ∃ m1, seeded.copyCurrent = some m1 ∧ m1.children = [0, 1] ∧
      m1.deref 1 = some { id := 1, cls := .OrbitViewController, name := "Copy of Orbit",
                          target_frame := some "map" } ∧
      m1.current_view_ = some 1 := by
  refine ⟨WF_seeded, ?_⟩
  obtain ⟨m1, h, -, -, h1, -, -, -, -, h2, h3, -⟩ :=
    copyCurrent_inserts_after seeded 0
      { id := 0, cls := .OrbitViewController, name := "Orbit", target_frame := some "map" }
      [] [] WF_seeded rfl rfl rfl (by simp)
  exact ⟨m1, h, h1, h2, h3⟩

/-! ### Legacy aliases and the no-op guard -/

theorem registeredIdentifiers_eq :
    registeredIdentifiers =
      ["rviz::XYOrbitViewController", "XYOrbit", "rviz::OrbitViewController", "Orbit",
       "rviz::FPSViewController", "FPS", "rviz::FixedOrientationOrthoViewController",
       "TopDownOrtho"] := by
  decide

theorem legacyIdentifiers_eq :
    legacyIdentifiers =
      ["rviz::SimpleOrbitViewController", "SimpleOrbit", "Top-down Orthographic"] := rfl

theorem mem_aliasGroup_cases (cls : ViewControllerClass) (type : String)
    (h : type ∈ aliasGroup cls) :
    (type = getClassNameStatic cls ∨ type = displayName cls) ∧ type ∉ legacyIdentifiers ∨
    (type ≠ getClassNameStatic cls ∧ type ≠ displayName cls) ∧ type ∈ legacyIdentifiers := by
  cases cls <;>
    simp [aliasGroup, legacyAliases, displayName, getClassNameStatic] at h <;>
    rcases h with rfl | rfl | rfl | rfl <;> decide

theorem not_recognized_not_legacy (type : String) (h : type ∉ recognizedIdentifiers) :
    type ∉ legacyIdentifiers := by
  intro hl
  apply h
  rw [mem_recognizedIdentifiers]
  simp [legacyIdentifiers_eq] at hl
  tauto

theorem not_recognized_ne (type : String) (h : type ∉ recognizedIdentifiers)
    (cls : ViewControllerClass) : ¬ (getClassNameStatic cls = type ∨ displayName cls = type) := by
  rw [mem_recognizedIdentifiers] at h
  cases cls <;> simp [getClassNameStatic, displayName] <;> constructor <;> rintro rfl <;>
    simp at h

theorem currentIsType_total (m : ViewManager) (type : String) (hwf : m.WF) :
    ∃ b, m.currentIsType type = some b := by
  cases hcur : m.current_view_ with
  | none => exact ⟨false, by simp [ViewManager.currentIsType, hcur]⟩
  | some cur =>
    obtain ⟨o, ho⟩ := WF_current m hwf cur hcur
    exact ⟨_, currentIsType_eq m type cur o hcur ho⟩

theorem switch_guard_true (m : ViewManager) (type : String)
    (hg : m.currentIsType type = some true) :
    m.setCurrentViewControllerType type = some (true, m) := by
  unfold ViewManager.setCurrentViewControllerType
  simp [hg]

/-- Two calls in a row with the same type string, after a first call that
builds an object of class `cls`. -/
theorem switch_twice_after_build (m1 : ViewManager) (type : String) (cls : ViewControllerClass)
    (n : Nat) (frame : Option String) (hwf : m1.WF) (hcur : m1.current_view_ = some n)
    (hn : m1.next_id = n + 1)
    (ho : m1.deref n = some { id := n, cls := cls, name := displayName cls,
                              target_frame := frame })
    (hcase : type ∈ aliasGroup cls ∨ type ∉ recognizedIdentifiers) :
    ∃ r2, m1.setCurrentViewControllerType type = some r2 ∧
      (type ∉ legacyIdentifiers → r2.2 = m1) ∧
      (type ∈ legacyIdentifiers → r2.2.current_view_ ≠ m1.current_view_) := by
  rcases hcase with hmem | hnot
  · rcases mem_aliasGroup_cases cls type hmem with ⟨heq, hnl⟩ | ⟨hne, hl⟩
    · refine ⟨_, switch_same m1 type n _ hcur ho ?_, fun _ => rfl, fun h => absurd h hnl⟩
      rcases heq with h | h
      · exact Or.inl h.symm
      · exact Or.inr h.symm
    · have hg : m1.currentIsType type = some false := by
        rw [currentIsType_eq m1 type n _ hcur ho]
        simp [ViewController.getClassName, Ne.symm hne.1, Ne.symm hne.2]
      obtain ⟨m2, h, -, h1, -⟩ := switch_builds m1 type cls hwf hg
        (by rw [create_of_mem_aliasGroup m1 cls type hmem]; simp [ViewManager.construct])
      refine ⟨_, h, fun h => absurd hl h, fun _ => ?_⟩
      simp [h1, hcur, hn]
  · have hno := not_recognized_ne type hnot cls
    exact ⟨_, switch_no_build m1 type n _ hcur ho hno (create_of_not_recognized m1 type hnot),
      fun _ => rfl, fun h => absurd h (not_recognized_not_legacy type hnot)⟩

/-- C2 (as amended): on a well-formed state, two calls of
`setCurrentViewControllerType(T)` in a row both return, and the second leaves
the state of the first untouched (same current object, nothing rebuilt) unless
`T` is a legacy alias that does not match the current view before the first
call; in that remaining case the second call rebuilds the view, so the current
object after the second call differs from the one after the first. -/
theorem setCurrentViewControllerType_twice (m : ViewManager) (type : String) (hwf : m.WF) :
    ∃ r1 r2, m.setCurrentViewControllerType type = some r1 ∧
      r1.2.setCurrentViewControllerType type = some r2 ∧
      ((type ∉ legacyIdentifiers ∨ m.currentIsType type = some true) → r2.2 = r1.2) ∧
      (r2.2.current_view_ = r1.2.current_view_ ↔
        (type ∉ legacyIdentifiers ∨ m.currentIsType type = some true)) := by
  obtain ⟨b, hb⟩ := currentIsType_total m type hwf
  cases b with
  | true =>
    have h := switch_guard_true m type hb
    exact ⟨_, _, h, h, fun _ => rfl, by simp [hb]⟩
  | false =>
    have key : ∀ (cls : ViewControllerClass),
        (if (m.create type).1 = none ∧ (m.create type).2.current_view_ = none
          then (m.create type).2.create "Orbit" else m.create type)
          = m.construct cls (displayName cls) →
        (type ∈ aliasGroup cls ∨ type ∉ recognizedIdentifiers) →
        ∃ r1 r2, m.setCurrentViewControllerType type = some r1 ∧
          r1.2.setCurrentViewControllerType type = some r2 ∧
          ((type ∉ legacyIdentifiers ∨ m.currentIsType type = some true) → r2.2 = r1.2) ∧
          (r2.2.current_view_ = r1.2.current_view_ ↔
            (type ∉ legacyIdentifiers ∨ m.currentIsType type = some true)) := by
      intro cls hc hcase
      obtain ⟨m1, h, hwf1, h1, h2, h3, -⟩ := switch_builds m type cls hwf hb hc
      obtain ⟨r2, hr2, hsame, hdiff⟩ :=
        switch_twice_after_build m1 type cls m.next_id _ hwf1 h1 h3 h2 hcase
      refine ⟨_, _, h, hr2, ?_, ?_⟩
      · rintro (hnl | ht)
        · exact hsame hnl
        · rw [hb] at ht; simp at ht
      · by_cases hl : type ∈ legacyIdentifiers
        · simp only [hl, not_true_eq_false, hb, false_or]
          simpa using hdiff hl
        · simp only [hl, not_false_eq_true, true_or, iff_true]
          rw [hsame hl]
    by_cases hr : type ∈ recognizedIdentifiers
    · obtain ⟨cls, hcls⟩ := exists_class_of_recognized type hr
      exact key cls (by rw [create_of_mem_aliasGroup m cls type hcls]; simp [ViewManager.construct])
        (Or.inl hcls)
    · cases hcur : m.current_view_ with
      | none =>
        exact key .OrbitViewController
          (by rw [create_of_not_recognized m type hr]; simp [hcur, ViewManager.create, displayName])
          (Or.inr hr)
      | some old =>
        obtain ⟨o, ho, hno⟩ := currentIsType_false m type old hcur hb
        have h := switch_no_build m type old o hcur ho hno (create_of_not_recognized m type hr)
        exact ⟨_, _, h, h, fun _ => rfl,
          by simp [not_recognized_not_legacy type hr]⟩

theorem setCurrentViewControllerType_twice_witness :
    seeded.WF ∧
    ∃ r1 r2, seeded.setCurrentViewControllerType "FPS" = some r1 ∧
      r1.2.setCurrentViewControllerType "FPS" = some r2 ∧ r2.2 = r1.2 := by
  refine ⟨WF_seeded, ?_⟩
  obtain ⟨r1, r2, h1, h2, h3, -⟩ := setCurrentViewControllerType_twice seeded "FPS" WF_seeded
  exact ⟨r1, r2, h1, h2, h3 (Or.inl (by decide))⟩

/-- C2 fails as stated: from a new manager, two calls in a row with the legacy
alias "SimpleOrbit" end with different current objects (0 after the first call,
1 after the second): the second call rebuilt the view and deleted object 0. -/
theorem setCurrentViewControllerType_twice_legacy_rebuilds :
    ((ViewManager.new "map").setCurrentViewControllerType "SimpleOrbit").map
        (fun r1 => (r1.1, r1.2.current_view_, r1.2.children)) = some (true, some 0, [0]) ∧
    (((ViewManager.new "map").setCurrentViewControllerType "SimpleOrbit").bind
        (fun r1 => r1.2.setCurrentViewControllerType "SimpleOrbit")).map
        (fun r2 => (r2.1, r2.2.current_view_, r2.2.children, r2.2.objects)) =
      some (true, some 1, [1],
        [{ id := 1, cls := .XYOrbitViewController, name := "XYOrbit",
           target_frame := some "map" }]) := by
  decide

theorem className_ne_XYOrbit_aliases (cls : ViewControllerClass) :
    getClassNameStatic cls ≠ "XYOrbit" ∧
    getClassNameStatic cls ≠ "rviz::SimpleOrbitViewController" := by
  cases cls <;> decide

/-- C3 (as amended): on a well-formed state, the legacy alias
"rviz::SimpleOrbitViewController" and "XYOrbit" behave identically (both calls
return the same boolean and the same resulting state: store, current object,
trace) exactly when the current view, if there is one, carries neither of the
two strings as its display name.  (A current view named "XYOrbit" is kept by
the call with "XYOrbit" and rebuilt by the call with the legacy alias.) -/
theorem setCurrentViewControllerType_legacy_alias (m : ViewManager) (hwf : m.WF) :
    (∃ r, m.setCurrentViewControllerType "rviz::SimpleOrbitViewController" = some r ∧
          m.setCurrentViewControllerType "XYOrbit" = some r) ↔
    (∀ cur o, m.current_view_ = some cur → m.deref cur = some o →
      o.name ≠ "XYOrbit" ∧ o.name ≠ "rviz::SimpleOrbitViewController") := by
  have hcA : ∀ m : ViewManager, m.create "rviz::SimpleOrbitViewController" =
      m.construct .XYOrbitViewController (displayName .XYOrbitViewController) :=
    fun m => create_of_mem_aliasGroup m _ _ (by decide)
  have hcB : ∀ m : ViewManager, m.create "XYOrbit" =
      m.construct .XYOrbitViewController (displayName .XYOrbitViewController) :=
    fun m => create_of_mem_aliasGroup m _ _ (by decide)
  constructor
  · rintro ⟨r, hA, hB⟩ cur o hcur ho
    have hcn := className_ne_XYOrbit_aliases o.cls
    by_contra hcon
    have hnm : o.name = "XYOrbit" ∨ o.name = "rviz::SimpleOrbitViewController" := by
      by_contra h
      rw [not_or] at h
      exact hcon h
    rcases hnm with hnm | hnm
    · have h1 := switch_same m "XYOrbit" cur o hcur ho (Or.inr hnm)
      have hg : m.currentIsType "rviz::SimpleOrbitViewController" = some false := by
        rw [currentIsType_eq m _ cur o hcur ho]
        simp [ViewController.getClassName, hcn.2, hnm]
      obtain ⟨m1, h2, -, -, -, h3, -⟩ := switch_builds m _ .XYOrbitViewController hwf hg
        (by rw [hcA]; simp [ViewManager.construct])
      rw [hB] at h1
      rw [hA] at h2
      have e1 : r.2 = m := by simpa using congrArg (fun x => x.map Prod.snd) h1
      have e2 : r.2 = m1 := by simpa using congrArg (fun x => x.map Prod.snd) h2
      rw [← e2, e1] at h3
      omega
    · have h1 := switch_same m "rviz::SimpleOrbitViewController" cur o hcur ho (Or.inr hnm)
      have hg : m.currentIsType "XYOrbit" = some false := by
        rw [currentIsType_eq m _ cur o hcur ho]
        simp [ViewController.getClassName, hcn.1, hnm]
      obtain ⟨m1, h2, -, -, -, h3, -⟩ := switch_builds m _ .XYOrbitViewController hwf hg
        (by rw [hcB]; simp [ViewManager.construct])
      rw [hA] at h1
      rw [hB] at h2
      have e1 : r.2 = m := by simpa using congrArg (fun x => x.map Prod.snd) h1
      have e2 : r.2 = m1 := by simpa using congrArg (fun x => x.map Prod.snd) h2
      rw [← e2, e1] at h3
      omega
  · intro hname
    have hg : m.currentIsType "rviz::SimpleOrbitViewController" = m.currentIsType "XYOrbit" := by
      cases hcur : m.current_view_ with
      | none => simp [ViewManager.currentIsType, hcur]
      | some cur =>
        obtain ⟨o, ho⟩ := WF_current m hwf cur hcur
        have hcn := className_ne_XYOrbit_aliases o.cls
        have hn := hname cur o hcur ho
        rw [currentIsType_eq m _ cur o hcur ho, currentIsType_eq m _ cur o hcur ho]
        simp [ViewController.getClassName, hcn.1, hcn.2, hn.1, hn.2]
    have heq : m.setCurrentViewControllerType "rviz::SimpleOrbitViewController" =
        m.setCurrentViewControllerType "XYOrbit" := by
      unfold ViewManager.setCurrentViewControllerType
      rw [hg, hcA, hcB]
    obtain ⟨r, hr⟩ := switch_total m "XYOrbit" hwf
    exact ⟨r, heq.trans hr, hr⟩

theorem setCurrentViewControllerType_legacy_alias_witness :
    seeded.WF ∧
    ∃ r, seeded.setCurrentViewControllerType "rviz::SimpleOrbitViewController" = some r ∧
         seeded.setCurrentViewControllerType "XYOrbit" = some r := by
  refine ⟨WF_seeded, (setCurrentViewControllerType_legacy_alias seeded WF_seeded).mpr ?_⟩
  intro cur o hcur ho
  obtain rfl : cur = 0 := by
    have : seeded.current_view_ = some 0 := rfl
    rw [this] at hcur
    simpa using hcur.symm
  have hd : seeded.deref 0 =
      some { id := 0, cls := .OrbitViewController, name := "Orbit",
             target_frame := some "map" } := rfl
  rw [hd] at ho
  obtain rfl : _ = o := by simpa using ho
  decide

/-- C3 fails as stated: in the state a new manager reaches by
`setCurrentViewControllerType("XYOrbit")` (one current XYOrbit view, object 0),
the call with "XYOrbit" returns true and changes nothing, while the call with
"rviz::SimpleOrbitViewController" builds object 1, deletes object 0 and emits
notifications (the trace grows from 6 to 14 entries). -/
theorem setCurrentViewControllerType_legacy_alias_differs :
    (ViewManager.new "map").setCurrentViewControllerType "XYOrbit" = some (true, xyCurrent) ∧
    xyCurrent.setCurrentViewControllerType "XYOrbit" = some (true, xyCurrent) ∧
    xyCurrent.trace.length = 6 ∧
    (xyCurrent.setCurrentViewControllerType "rviz::SimpleOrbitViewController").map
        (fun r => (r.1, r.2.current_view_, r.2.children, r.2.trace.length)) =
      some (true, some 1, [1], 14) := by
  decide

/-! ### Sequences of switches -/

theorem registered_recognized (type : String) (h : type ∈ registeredIdentifiers) :
    type ∈ recognizedIdentifiers := by
  rw [registeredIdentifiers_eq] at h
  rw [mem_recognizedIdentifiers]
  simp at h
  tauto

/-- One switch to a recognized type, from a state whose store is empty with no
current view or holds exactly the current view, ends in a state whose store
holds exactly the current view. -/
theorem switch_recognized_step (m : ViewManager) (type : String) (hwf : m.WF)
    (hrec : type ∈ recognizedIdentifiers)
    (hs : (m.children = [] ∧ m.current_view_ = none) ∨
      ∃ c, m.current_view_ = some c ∧ m.children = [c]) :
    ∃ r, m.setCurrentViewControllerType type = some r ∧ r.2.WF ∧
      ∃ c, r.2.current_view_ = some c ∧ r.2.children = [c] := by
  obtain ⟨b, hb⟩ := currentIsType_total m type hwf
  cases b with
  | true =>
    refine ⟨_, switch_guard_true m type hb, hwf, ?_⟩
    rcases hs with ⟨-, hcur⟩ | hs
    · simp [ViewManager.currentIsType, hcur] at hb
    · exact hs
  | false =>
    obtain ⟨cls, hcls⟩ := exists_class_of_recognized type hrec
    obtain ⟨m1, h, hwf1, h1, -, -, h3, -⟩ := switch_builds m type cls hwf hb
      (by rw [create_of_mem_aliasGroup m cls type hcls]; simp [ViewManager.construct])
    refine ⟨_, h, hwf1, m.next_id, h1, ?_⟩
    rcases hs with ⟨hch, hcur⟩ | ⟨c, hcur, hch⟩
    · rw [h3, hcur, hch]; rfl
    · rw [h3, hcur, hch]; simp

theorem switches_recognized (types : List String) :
    ∀ (m : ViewManager), m.WF → (∀ t ∈ types, t ∈ recognizedIdentifiers) →
      ((m.children = [] ∧ m.current_view_ = none) ∨
        ∃ c, m.current_view_ = some c ∧ m.children = [c]) →
      ∃ m1, m.setCurrentViewControllerTypes types = some m1 ∧ m1.WF ∧
        (types ≠ [] → ∃ c, m1.current_view_ = some c ∧ m1.children = [c]) := by
  induction types with
  | nil =>
    intro m hwf _ _
    exact ⟨m, rfl, hwf, fun h => absurd rfl h⟩
  | cons t rest ih =>
    intro m hwf hrec hs
    obtain ⟨r, hr, hwf1, hs1⟩ :=
      switch_recognized_step m t hwf (hrec t (List.mem_cons_self t rest)) hs
    obtain ⟨m2, h2, hwf2, hs2⟩ :=
      ih r.2 hwf1 (fun x hx => hrec x (List.mem_cons_of_mem t hx)) (Or.inr hs1)
    refine ⟨m2, ?_, hwf2, fun _ => ?_⟩
    · simp only [ViewManager.setCurrentViewControllerTypes, hr]
      exact h2
    · cases rest with
      | nil =>
        simp only [ViewManager.setCurrentViewControllerTypes, Option.some.injEq] at h2
        rw [← h2]; exact hs1
      | cons u rest2 => exact hs2 (by simp)

/-- C1: start from a freshly constructed manager (empty store, no current
view) and make any finite sequence of `setCurrentViewControllerType` calls
whose arguments are type identifiers registered by `initialize` (class names
or display names).  After each call (after the first `n` calls, for every
`0 < n` up to the length of the sequence) the store is non-empty, a current
view exists, is live, and occurs exactly once in the store. -/
theorem setCurrentViewControllerTypes_registered (target_frame : String) (types : List String)
    (hreg : ∀ t ∈ types, t ∈ registeredIdentifiers) (n : Nat) (hpos : 0 < n)
    (hle : n ≤ types.length) :
    ∃ m1, (ViewManager.new target_frame).setCurrentViewControllerTypes (types.take n) = some m1 ∧
      m1.children ≠ [] ∧
      ∃ c, m1.current_view_ = some c ∧ m1.children.count c = 1 ∧
        (m1.deref c).isSome = true := by
  have hne : types.take n ≠ [] := by
    intro h
    have := congrArg List.length h
    rw [List.length_take, List.length_nil] at this
    omega
  obtain ⟨m1, h, hwf1, hs⟩ := switches_recognized (types.take n) (ViewManager.new target_frame)
    (WF_new target_frame)
    (fun t ht => registered_recognized t (hreg t (List.mem_of_mem_take ht)))
    (Or.inl ⟨rfl, rfl⟩)
  obtain ⟨c, hcur, hch⟩ := hs hne
  refine ⟨m1, h, by rw [hch]; simp, c, hcur, by rw [hch]; simp, ?_⟩
  exact hwf1.2.2.1 c (by simp [hcur])

theorem setCurrentViewControllerTypes_registered_witness :
    (∀ t ∈ ["FPS", "rviz::XYOrbitViewController", "XYOrbit", "Orbit"],
      t ∈ registeredIdentifiers) ∧
    ∃ m1, (ViewManager.new "map").setCurrentViewControllerTypes
        (["FPS", "rviz::XYOrbitViewController", "XYOrbit", "Orbit"].take 3) = some m1 ∧
      m1.children ≠ [] ∧
      ∃ c, m1.current_view_ = some c ∧ m1.children.count c = 1 ∧
        (m1.deref c).isSome = true :=
  ⟨by decide,
   setCurrentViewControllerTypes_registered "map"
     ["FPS", "rviz::XYOrbitViewController", "XYOrbit", "Orbit"] (by decide) 3 (by decide)
     (by decide)⟩

/-! ### setCurrent, the registry and the seeding -/

theorem deref_map_target_frame (m : ViewManager) (view v : Nat) (frame : String)
    (o : ViewController) (ho : m.deref v = some o) :
    (m.objects.map
      (fun o => if o.id = view then { o with target_frame := some frame } else o)).find?
        (fun o => o.id == v) =
      some (if o.id = view then { o with target_frame := some frame } else o) := by
  have hp : ((fun o : ViewController => o.id == v) ∘
      (fun o => if o.id = view then { o with target_frame := some frame } else o)) =
      (fun o : ViewController => o.id == v) := by
    funext a
    by_cases ha : a.id = view <;> simp [ha]
  have ho2 : m.objects.find? (fun o => o.id == v) = some o := ho
  rw [List.find?_map, hp, ho2]
  rfl

/-- C13: for a live view `v`, `setCurrent(v, deactivate_previous)` returns, and
it returns true exactly when `v` was not already the current view.  When it
returns false the state is unchanged (nothing is emitted).  When it returns
true the current view is `v`, the render panel holds `v`, `v` carries the
context's target frame, and the trace grows by exactly: the binding of `v` to
the render panel with the given flag, the target frame pushed to `v`, one
`currentChanged(v)` and then one `configChanged`.  The store is the same in
both cases. -/
theorem setCurrent_iff_changed (m : ViewManager) (v : Nat) (deactivate_previous : Bool)
    (o : ViewController) (hlive : m.deref v = some o) :
    ∃ r, m.setCurrent v deactivate_previous = some r ∧
      (r.1 = true ↔ m.current_view_ ≠ some v) ∧
      (r.1 = false → r.2 = m) ∧
      (r.1 = true →
        r.2.current_view_ = some v ∧ r.2.panel_view = some v ∧
        r.2.deref v = some { o with target_frame := some m.target_frame } ∧
        r.2.trace = m.trace ++
          [Effect.setViewController v deactivate_previous,
           Effect.setTargetFrame v m.target_frame,
           Effect.signal (Signal.currentChanged v) (some v) (some v),
           Effect.signal Signal.configChanged (some v) (some v)]) ∧
      r.2.children = m.children := by
  by_cases hcur : m.current_view_ = some v
  · exact ⟨_, setCurrent_of_eq m v deactivate_previous hcur, by simp [hcur], fun _ => rfl,
      by simp, rfl⟩
  · refine ⟨_, setCurrent_of_ne m v deactivate_previous hcur (by simp [hlive]), by simp [hcur],
      by simp, fun _ => ⟨rfl, rfl, ?_, rfl⟩, rfl⟩
    have h := deref_map_target_frame m v v m.target_frame o hlive
    rw [if_pos (deref_id m v o hlive)] at h
    exact h

theorem setCurrent_iff_changed_witness :
    seeded.deref 0 =
      some { id := 0, cls := .OrbitViewController, name := "Orbit",
             target_frame := some "map" } ∧
    seeded.setCurrent 0 true = some (false, seeded) := by
  refine ⟨rfl, ?_⟩
  obtain ⟨r, hr, hiff, hsame, -, -⟩ := setCurrent_iff_changed seeded 0 true _ rfl
  have hf : r.1 = false := by
    cases h : r.1 with
    | false => rfl
    | true => exact absurd rfl (hiff.mp h)
  rw [hr]
  obtain ⟨b, m1⟩ := r
  simp only at hf hsame
  rw [hf, hsame hf]

/-- C15: `addViewController(class_name, name)` appends exactly one entry for the
registration at the end of the type list, whatever the list already holds (a
second registration of the same type appears a second time), emits exactly one
`viewControllerTypeAdded(class_name, name)` and leaves the store, the current
view, the live objects and the render panel as they were. -/
theorem addViewController_appends (m : ViewManager) (class_name name : String) :
    (m.addViewController class_name name).types_ = m.types_ ++ [name] ∧
    ((m.addViewController class_name name).addViewController class_name name).types_ =
      m.types_ ++ [name, name] ∧
    (m.addViewController class_name name).trace = m.trace ++
      [Effect.signal (Signal.viewControllerTypeAdded class_name name) m.panel_view
        m.current_view_] ∧
    (m.addViewController class_name name).children = m.children ∧
    (m.addViewController class_name name).current_view_ = m.current_view_ ∧
    (m.addViewController class_name name).objects = m.objects ∧
    (m.addViewController class_name name).panel_view = m.panel_view := by
  refine ⟨rfl, ?_, rfl, rfl, rfl, rfl, rfl⟩
  simp [ViewManager.addViewController, ViewManager.emit]

theorem onViewDeleted_other (m : ViewManager) (deleted_object : Nat)
    (h : m.current_view_ ≠ some deleted_object) : m.onViewDeleted deleted_object = some m := by
  simp [ViewManager.onViewDeleted, h]

/-- C18: when the destroyed object is not the current view, `onViewDeleted`
does nothing: the resulting state is the input state (current view, render
panel's controller, store, live objects and trace are untouched, so nothing is
constructed and nothing emitted). -/
theorem onViewDeleted_not_current (m : ViewManager) (deleted_object : Nat)
    (h : m.current_view_ ≠ some deleted_object) : m.onViewDeleted deleted_object = some m :=
  onViewDeleted_other m deleted_object h

theorem onViewDeleted_not_current_witness :
    seeded.current_view_ ≠ some 7 ∧ seeded.onViewDeleted 7 = some seeded :=
  ⟨by decide, onViewDeleted_not_current seeded 7 (by decide)⟩

/-- C19: `initialize` on a freshly constructed manager registers the four types
in the order XYOrbit, Orbit, FPS, TopDownOrtho (type list and
`viewControllerTypeAdded` signals) and then leaves a store of exactly one
object, of class Orbit, which is the current view and the render panel's
controller. -/
theorem initialize_seeds (target_frame : String) :
    ∃ m, ViewManager.initialize (ViewManager.new target_frame) = some m ∧
      m.types_ = ["XYOrbit", "Orbit", "FPS", "TopDownOrtho"] ∧
      m.trace.take 4 =
        [Effect.signal (Signal.viewControllerTypeAdded "rviz::XYOrbitViewController" "XYOrbit")
           none none,
         Effect.signal (Signal.viewControllerTypeAdded "rviz::OrbitViewController" "Orbit")
           none none,
         Effect.signal (Signal.viewControllerTypeAdded "rviz::FPSViewController" "FPS")
           none none,
         Effect.signal (Signal.viewControllerTypeAdded
           "rviz::FixedOrientationOrthoViewController" "TopDownOrtho") none none] ∧
      m.children = [0] ∧
      m.objects = [{ id := 0, cls := .OrbitViewController, name := "Orbit",
                     target_frame := some target_frame }] ∧
      m.current_view_ = some 0 ∧ m.panel_view = some 0 :=
  ⟨_, rfl, rfl, rfl, rfl, rfl, rfl, rfl⟩

/-! ### Destruction of views -/

theorem emitDestroyed_other (view : Nat) (k : Nat) (m : ViewManager)
    (h : m.current_view_ ≠ some view) : ViewManager.emitDestroyed view k m = some m := by
  induction k with
  | zero => rfl
  | succ n ih => simp [ViewManager.emitDestroyed, onViewDeleted_other m view h, ih]

theorem emitDestroyed_first (view : Nat) (k : Nat) (m m1 : ViewManager)
    (h1 : m.onViewDeleted view = some m1) (hne : m1.current_view_ ≠ some view) :
    ViewManager.emitDestroyed view (k + 1) m = some m1 := by
  simp [ViewManager.emitDestroyed, h1, emitDestroyed_other view k m1 hne]

/-- The store lists no view (it is empty) or only the deleted current view:
`onViewDeleted` builds a default Orbit view, adds it and makes it current. -/
theorem onViewDeleted_rebuild (m : ViewManager) (v : Nat) (hcur : m.current_view_ = some v)
    (hch : m.children = [] ∨ m.children = [v])
    (hfresh : ∀ o ∈ m.objects, o.id < m.next_id) (hv : v < m.next_id) :
    m.onViewDeleted v = some
      { objects := m.objects ++
          [{ id := m.next_id, cls := .OrbitViewController, name := "Orbit",
             target_frame := some m.target_frame }]
        next_id := m.next_id + 1
        children := m.children ++ [m.next_id]
        current_view_ := some m.next_id
        types_ := m.types_
        connections := m.connections ++ [m.next_id]
        panel_view := some m.next_id
        target_frame := m.target_frame
        trace := m.trace ++
          [Effect.constructed m.next_id .OrbitViewController "Orbit",
           Effect.addChild m.next_id m.children.length,
           Effect.setViewController m.next_id false,
           Effect.setTargetFrame m.next_id m.target_frame,
           Effect.signal (Signal.currentChanged m.next_id) (some m.next_id) (some m.next_id),
           Effect.signal Signal.configChanged (some m.next_id) (some m.next_id)] } := by
  have hne : v ≠ m.next_id := Nat.ne_of_lt hv
  have hcond : m.getNumViews = 0 ∨ (m.getNumViews = 1 ∧ m.getViewAt 0 = some v) := by
    rcases hch with h | h
    · left; simp [ViewManager.getNumViews, h]
    · right; simp [ViewManager.getNumViews, ViewManager.getViewAt, h]
  have hcreate : m.create "Orbit" = m.construct .OrbitViewController "Orbit" := by
    simp [ViewManager.create]
  unfold ViewManager.onViewDeleted
  simp only [hcur, if_true, hcond, hcreate]
  simp only [ViewManager.construct, ViewManager.add, ViewManager.addChild]
  rw [setCurrent_of_ne]
  · simp [map_setTargetFrame_fresh _ _ _ hfresh, hcur]
  · simp [hcur, hne]
  · simp [ViewManager.deref, List.find?_append, find_fresh_none _ _ hfresh]

/-- The first child is not the deleted current view: it becomes current. -/
theorem onViewDeleted_head (m : ViewManager) (v x : Nat) (rest : List Nat)
    (hcur : m.current_view_ = some v) (hch : m.children = x :: rest) (hx : x ≠ v) :
    m.onViewDeleted v = (m.setCurrent x false).map (fun p => p.2) := by
  unfold ViewManager.onViewDeleted
  have hcond : ¬ (m.getNumViews = 0 ∨ (m.getNumViews = 1 ∧ m.getViewAt 0 = some v)) := by
    simp [ViewManager.getNumViews, ViewManager.getViewAt, hch, hx]
  simp only [hcur, if_true, hcond, if_false]
  simp [ViewManager.getViewAt, hch, hx]

/-- The first child is the deleted current view and a second child follows:
the second child becomes current. -/
theorem onViewDeleted_second (m : ViewManager) (v y : Nat) (rest : List Nat)
    (hcur : m.current_view_ = some v) (hch : m.children = v :: y :: rest) :
    m.onViewDeleted v = (m.setCurrent y false).map (fun p => p.2) := by
  unfold ViewManager.onViewDeleted
  have hcond : ¬ (m.getNumViews = 0 ∨ (m.getNumViews = 1 ∧ m.getViewAt 0 = some v)) := by
    simp [ViewManager.getNumViews, ViewManager.getViewAt, hch]
  simp only [hcur, if_true, hcond, if_false]
  simp [ViewManager.getViewAt, hch]

theorem deleteView_other (m : ViewManager) (v : Nat) (o : ViewController)
    (ho : m.deref v = some o) (hne : m.current_view_ ≠ some v) :
    m.deleteView v = some
      { m with
        objects := m.objects.filter (fun o => o.id ≠ v)
        children := m.children.filter (fun c => c ≠ v)
        connections := m.connections.filter (fun c => c ≠ v)
        trace := m.trace ++ [Effect.deleted v] } := by
  unfold ViewManager.deleteView
  simp only [ho]
  rw [emitDestroyed_other v _ _ (by simpa using hne)]

theorem count_succ_of_mem (l : List Nat) (v : Nat) (h : v ∈ l) : ∃ k, l.count v = k + 1 := by
  have := List.count_pos_iff.mpr h
  exact ⟨l.count v - 1, by omega⟩

/-- Deleting the connected current view when no other view is stored: a
default Orbit view is built and becomes the only child and the current view. -/
theorem deleteView_current_rebuild (m : ViewManager) (v : Nat) (o : ViewController)
    (ho : m.deref v = some o) (hcur : m.current_view_ = some v) (hconn : v ∈ m.connections)
    (hch : m.children.filter (fun c => c ≠ v) = [])
    (hfresh : ∀ o ∈ m.objects, o.id < m.next_id) :
    m.deleteView v = some
      { objects := m.objects.filter (fun o => o.id ≠ v) ++
          [{ id := m.next_id, cls := .OrbitViewController, name := "Orbit",
             target_frame := some m.target_frame }]
        next_id := m.next_id + 1
        children := [m.next_id]
        current_view_ := some m.next_id
        types_ := m.types_
        connections := m.connections.filter (fun c => c ≠ v) ++ [m.next_id]
        panel_view := some m.next_id
        target_frame := m.target_frame
        trace := m.trace ++
          [Effect.deleted v,
           Effect.constructed m.next_id .OrbitViewController "Orbit",
           Effect.addChild m.next_id 0,
           Effect.setViewController m.next_id false,
           Effect.setTargetFrame m.next_id m.target_frame,
           Effect.signal (Signal.currentChanged m.next_id) (some m.next_id) (some m.next_id),
           Effect.signal Signal.configChanged (some m.next_id) (some m.next_id)] } := by
  have hv : v < m.next_id := by
    have := hfresh o (deref_mem m v o ho)
    rwa [deref_id m v o ho] at this
  have hne : m.next_id ≠ v := Nat.ne_of_gt hv
  obtain ⟨k, hk⟩ := count_succ_of_mem m.connections v hconn
  have h1 := onViewDeleted_rebuild
    { m with children := m.children.filter (fun c => c ≠ v)
             trace := m.trace ++ [Effect.deleted v] } v hcur (Or.inl hch) hfresh hv
  have hall : ∀ a ∈ m.children, a = v := by simpa [List.filter_eq_nil_iff] using hch
  unfold ViewManager.deleteView
  simp only [ho, hk]
  rw [emitDestroyed_first v k _ _ h1 (by simp [hne])]
  simpa [hne] using hall

/-- Deleting the connected current view when other views are stored: the first
remaining child becomes the current view, nothing is built. -/
theorem deleteView_current_next (m : ViewManager) (v x : Nat) (rest : List Nat)
    (o : ViewController) (ho : m.deref v = some o) (hcur : m.current_view_ = some v)
    (hconn : v ∈ m.connections) (hch : m.children.filter (fun c => c ≠ v) = x :: rest)
    (hx : (m.deref x).isSome = true) :
    m.deleteView v = some
      { objects := (m.objects.map (fun o =>
          if o.id = x then { o with target_frame := some m.target_frame } else o)).filter
            (fun o => o.id ≠ v)
        next_id := m.next_id
        children := x :: rest
        current_view_ := some x
        types_ := m.types_
        connections := m.connections.filter (fun c => c ≠ v) ++ [x]
        panel_view := some x
        target_frame := m.target_frame
        trace := m.trace ++
          [Effect.deleted v,
           Effect.setViewController x false,
           Effect.setTargetFrame x m.target_frame,
           Effect.signal (Signal.currentChanged x) (some x) (some x),
           Effect.signal Signal.configChanged (some x) (some x)] } := by
  have hxv : x ≠ v := by
    have : x ∈ m.children.filter (fun c => c ≠ v) := by rw [hch]; exact List.mem_cons_self x rest
    simpa using (List.mem_filter.mp this).2
  obtain ⟨k, hk⟩ := count_succ_of_mem m.connections v hconn
  obtain ⟨m1, hm1⟩ : ∃ m1 : ViewManager, m1 =
      { m with children := m.children.filter (fun c => c ≠ v)
               trace := m.trace ++ [Effect.deleted v] } := ⟨_, rfl⟩
  have hcur1 : m1.current_view_ = some v := by rw [hm1]; exact hcur
  have hch1 : m1.children = x :: rest := by rw [hm1]; exact hch
  have hx1 : (m1.deref x).isSome = true := by rw [hm1]; exact hx
  have h1 := onViewDeleted_head m1 v x rest hcur1 hch1 hxv
  rw [setCurrent_of_ne m1 x false (by simp [hcur1, hxv.symm]) hx1] at h1
  unfold ViewManager.deleteView
  simp only [ho, hk]
  rw [← hm1, emitDestroyed_first v k _ _ h1 (by simp [hxv])]
  subst hm1
  simpa [hxv] using hch

theorem find_of_filter_eq_cons (l : List Nat) (p : Nat → Bool) (x : Nat) (rest : List Nat)
    (h : l.filter p = x :: rest) : l.find? p = some x := by
  induction l with
  | nil => simp at h
  | cons a t ih =>
    by_cases hpa : p a = true
    · simp only [List.filter_cons, hpa, if_true, List.cons.injEq] at h
      obtain ⟨rfl, -⟩ := h
      simp [List.find?_cons, hpa]
    · simp only [List.filter_cons, hpa] at h
      simp only [List.find?_cons, hpa]
      exact ih h

theorem length_filter_ne_of_nodup (l : List Nat) (v : Nat) (hn : l.Nodup) (hv : v ∈ l) :
    (l.filter (fun c => c ≠ v)).length = l.length - 1 := by
  have h := List.Nodup.erase_eq_filter hn v
  have h2 : l.filter (fun c => decide (c ≠ v)) = l.filter (fun c => c != v) := by
    congr 1; funext c
    by_cases hc : c = v <;> simp [hc]
  rw [h2, ← h, List.length_erase_of_mem hv]

theorem deref_filter_none (l : List ViewController) (v : Nat) :
    (l.filter (fun o => o.id ≠ v)).find? (fun o => o.id == v) = none := by
  rw [List.find?_eq_none]
  intro x hx
  simpa using (List.mem_filter.mp hx).2

/-- C11: deleting the current view when it is the only object in the store
(and its `destroyed` signal is connected, as `setCurrent` leaves it) ends with
a store of size one whose single entry is a newly constructed object of the
default class Orbit, distinct from the deleted one; that object is the current
view and the render panel's controller, and the deleted object is gone.  Run
on the store before it is pruned (it still lists only the deleted view),
`onViewDeleted` takes the same path and builds the same Orbit object. -/
theorem deleteView_sole_current (m : ViewManager) (v : Nat) (o : ViewController)
    (hwf : m.WF) (hcur : m.current_view_ = some v) (hstore : m.children = [v])
    (ho : m.deref v = some o) (hconn : v ∈ m.connections) :
    (∃ m1, m.deleteView v = some m1 ∧
      m1.children = [m.next_id] ∧ m1.children.length = 1 ∧
      m.next_id ≠ v ∧ m.deref m.next_id = none ∧
      m1.deref m.next_id =
        some { id := m.next_id, cls := .OrbitViewController, name := "Orbit",
               target_frame := some m.target_frame } ∧
      m1.deref v = none ∧
      m1.current_view_ = some m.next_id ∧ m1.panel_view = some m.next_id) ∧
    (∃ m2, m.onViewDeleted v = some m2 ∧ m2.children = [v, m.next_id] ∧
      m2.current_view_ = some m.next_id ∧ m2.panel_view = some m.next_id ∧
      m2.deref m.next_id =
        some { id := m.next_id, cls := .OrbitViewController, name := "Orbit",
               target_frame := some m.target_frame }) := by
  have hfresh := hwf.1
  have hv : v < m.next_id := by
    have := hfresh o (deref_mem m v o ho)
    rwa [deref_id m v o ho] at this
  have hne : m.next_id ≠ v := Nat.ne_of_gt hv
  have hch : m.children.filter (fun c => c ≠ v) = [] := by rw [hstore]; simp
  have hfresh2 : ∀ o ∈ m.objects.filter (fun o => o.id ≠ v), o.id < m.next_id :=
    fun o ho => hfresh o (List.mem_of_mem_filter ho)
  constructor
  · refine ⟨_, deleteView_current_rebuild m v o ho hcur hconn hch hfresh, rfl, rfl, hne,
      find_fresh_none _ _ hfresh, ?_, ?_, rfl, rfl⟩
    · exact deref_append_new _ _ m.next_id _ hfresh2 rfl rfl
    · simp [ViewManager.deref, List.find?_append, deref_filter_none, hne]
  · refine ⟨_, onViewDeleted_rebuild m v hcur (Or.inr hstore) hfresh hv, by simp [hstore], rfl,
      rfl, ?_⟩
    exact deref_append_new _ _ m.next_id _ hfresh rfl rfl

theorem WF_twoViews : twoViews.WF := by
  simp [ViewManager.WF, twoViews, seeded, ViewManager.copyCurrent, ViewManager.deref]
  decide

theorem deleteView_sole_current_witness :
    seeded.WF ∧ seeded.current_view_ = some 0 ∧ seeded.children = [0] ∧
    0 ∈ seeded.connections ∧
    ∃ m1, seeded.deleteView 0 = some m1 ∧ m1.children = [1] ∧
      m1.deref 1 = some { id := 1, cls := .OrbitViewController, name := "Orbit",
                          target_frame := some "map" } ∧
      m1.deref 0 = none ∧ m1.current_view_ = some 1 ∧ m1.panel_view = some 1 := by
  refine ⟨WF_seeded, rfl, rfl, by decide, ?_⟩
  obtain ⟨m1, h, h1, -, -, -, h2, h3, h4, h5⟩ :=
    (deleteView_sole_current seeded 0
      { id := 0, cls := .OrbitViewController, name := "Orbit", target_frame := some "map" }
      WF_seeded rfl rfl rfl (by decide)).1
  exact ⟨m1, h, h1, h2, h3, h4, h5⟩

/-- C12: deleting the current view (its `destroyed` signal connected) from a
store of `n ≥ 2` distinct entries ends with a store of `n - 1` entries, the old
store without the deleted view; nothing is constructed (no identity is
allocated, every live object existed before, the trace gains no construction),
and the current view, also the render panel's controller, is a surviving
object: the first entry of the old store, in order, that is not the deleted
one.  Run on the store before it is pruned, `onViewDeleted` picks that same
entry, through `getViewAt(1)` when the deleted view is at position 0. -/
theorem deleteView_current_of_many (m : ViewManager) (v : Nat) (o : ViewController)
    (hwf : m.WF) (hcur : m.current_view_ = some v) (ho : m.deref v = some o)
    (hconn : v ∈ m.connections) (hnodup : m.children.Nodup) (hmem : v ∈ m.children)
    (hlen : 2 ≤ m.children.length) :
    ∃ x, m.children.find? (fun c => c ≠ v) = some x ∧ x ≠ v ∧
      (∃ m1, m.deleteView v = some m1 ∧
        m1.children = m.children.filter (fun c => c ≠ v) ∧
        m1.children.length = m.children.length - 1 ∧
        m1.next_id = m.next_id ∧ (∀ o1 ∈ m1.objects, ∃ o0 ∈ m.objects, o0.id = o1.id) ∧
        m1.trace = m.trace ++
          [Effect.deleted v, Effect.setViewController x false,
           Effect.setTargetFrame x m.target_frame,
           Effect.signal (Signal.currentChanged x) (some x) (some x),
           Effect.signal Signal.configChanged (some x) (some x)] ∧
        m1.current_view_ = some x ∧ m1.panel_view = some x ∧ x ∈ m1.children ∧
        (m1.deref x).isSome = true ∧ m1.deref v = none) ∧
      (∃ m2, m.onViewDeleted v = some m2 ∧ m2.current_view_ = some x ∧
        m2.next_id = m.next_id) := by
  have hflen := length_filter_ne_of_nodup m.children v hnodup hmem
  obtain ⟨x, rest, hch⟩ : ∃ x rest, m.children.filter (fun c => c ≠ v) = x :: rest := by
    cases hf : m.children.filter (fun c => c ≠ v) with
    | nil => rw [hf] at hflen; simp at hflen; omega
    | cons x rest => exact ⟨x, rest, rfl⟩
  have hxmem : x ∈ m.children.filter (fun c => c ≠ v) := by
    rw [hch]; exact List.mem_cons_self x rest
  have hxv : x ≠ v := by simpa using (List.mem_filter.mp hxmem).2
  have hxc : x ∈ m.children := List.mem_of_mem_filter hxmem
  have hx : (m.deref x).isSome = true := hwf.2.2.2 x hxc
  obtain ⟨ox, hox⟩ := Option.isSome_iff_exists.mp hx
  refine ⟨x, find_of_filter_eq_cons _ _ x rest hch, hxv, ?_, ?_⟩
  · refine ⟨_, deleteView_current_next m v x rest o ho hcur hconn hch hx, hch.symm, ?_, rfl, ?_,
      rfl, rfl, rfl, List.mem_cons_self x rest, ?_, ?_⟩
    · rw [← hflen, hch]
    · intro o1 ho1
      obtain ⟨a, ha, rfl⟩ := List.mem_map.mp (List.mem_of_mem_filter ho1)
      refine ⟨a, ha, ?_⟩
      by_cases h : a.id = x <;> simp [h]
    · rw [deref_isSome_iff]
      refine ⟨if ox.id = x then { ox with target_frame := some m.target_frame } else ox, ?_, ?_⟩
      · refine List.mem_filter.mpr ⟨List.mem_map.mpr ⟨ox, deref_mem m x ox hox, rfl⟩, ?_⟩
        have hid := deref_id m x ox hox
        simp [hid, hxv]
      · have hid := deref_id m x ox hox
        simp [hid]
    · exact deref_filter_none _ v
  · cases hc : m.children with
    | nil => rw [hc] at hmem; simp at hmem
    | cons a t =>
      by_cases hav : a = v
      · subst hav
        cases t with
        | nil => rw [hc] at hlen; simp at hlen
        | cons y t2 =>
          have hy : y = x := by
            rw [hc] at hch hnodup
            have hya : y ≠ a := by
              intro h; subst h
              simp at hnodup
            have := hch
            simp [hya] at this
            exact this.1
          subst hy
          rw [onViewDeleted_second m a y t2 hcur hc,
            setCurrent_of_ne m y false (by simp [hcur, hxv.symm]) hx]
          exact ⟨_, rfl, rfl, rfl⟩
      · have hax : a = x := by
          rw [hc] at hch
          simp [hav] at hch
          exact hch.1
        subst hax
        rw [onViewDeleted_head m v a t hcur hc hav,
          setCurrent_of_ne m a false (by simp [hcur, hxv.symm]) hx]
        exact ⟨_, rfl, rfl, rfl⟩

theorem WF_twoViewsFirst : twoViewsFirst.WF := by
  unfold ViewManager.WF
  refine ⟨by decide, by decide, ?_, by decide⟩
  intro c hc
  have h0 : twoViewsFirst.current_view_ = some 0 := by decide
  rw [h0] at hc
  obtain rfl : 0 = c := by simpa using hc
  decide

theorem deleteView_current_of_many_witness :
    twoViewsFirst.WF ∧ twoViewsFirst.children = [0, 1] ∧
    twoViewsFirst.current_view_ = some 0 ∧ 0 ∈ twoViewsFirst.connections ∧
    ∃ m1, twoViewsFirst.deleteView 0 = some m1 ∧ m1.children = [1] ∧
      m1.current_view_ = some 1 ∧ m1.panel_view = some 1 ∧ m1.next_id = 2 := by
  refine ⟨WF_twoViewsFirst, by decide, by decide, by decide, ?_⟩
  obtain ⟨x, hx, -, ⟨m1, h, h1, -, h2, -, -, h3, h4, -⟩, -⟩ :=
    deleteView_current_of_many twoViewsFirst 0
      { id := 0, cls := .OrbitViewController, name := "Orbit", target_frame := some "map" }
      WF_twoViewsFirst (by decide) (by decide) (by decide) (by decide) (by decide) (by decide)
  have hx1 : x = 1 := by
    have : twoViewsFirst.children.find? (fun c => c ≠ 0) = some 1 := by decide
    rw [this] at hx
    simpa using hx.symm
  subst hx1
  exact ⟨m1, h, by rw [h1]; decide, h3, h4, by rw [h2]; decide⟩

/-! ### Order of effects and notifications -/

theorem TraceExt_refl (m : ViewManager) : m.TraceExt m :=
  ⟨[], by simp, by simp⟩

theorem TraceExt_trans (m m1 m2 : ViewManager) (h1 : m.TraceExt m1) (h2 : m1.TraceExt m2) :
    m.TraceExt m2 := by
  obtain ⟨a1, e1, p1⟩ := h1
  obtain ⟨a2, e2, p2⟩ := h2
  refine ⟨a1 ++ a2, by rw [e2, e1, List.append_assoc], ?_⟩
  intro e he
  rcases List.mem_append.mp he with h | h
  · exact p1 e h
  · exact p2 e h

theorem setCurrent_none_of_dead (m : ViewManager) (v : Nat) (b : Bool)
    (hcur : m.current_view_ ≠ some v) (hdead : m.deref v = none) :
    m.setCurrent v b = none := by
  have hne2 : some v ≠ m.current_view_ := fun h => hcur h.symm
  have hd : m.objects.find? (fun o => o.id == v) = none := hdead
  unfold ViewManager.setCurrent
  rw [if_pos hne2]
  cases b <;> cases m.current_view_ <;>
    simp only [ViewManager.setViewController, ViewManager.setTargetFrame, ViewManager.deref, hd]

theorem setCurrent_traceExt (m : ViewManager) (v : Nat) (b : Bool) (r : Bool × ViewManager)
    (h : m.setCurrent v b = some r) : m.TraceExt r.2 := by
  by_cases hcur : m.current_view_ = some v
  · rw [setCurrent_of_eq m v b hcur] at h
    cases h
    exact TraceExt_refl m
  · cases hl : m.deref v with
    | none =>
      rw [setCurrent_none_of_dead m v b hcur hl] at h
      cases h
    | some o =>
      rw [setCurrent_of_ne m v b hcur (by simp [hl])] at h
      cases h
      exact ⟨_, rfl, by simp [Effect.panelAgrees]⟩

theorem onViewDeleted_traceExt (m : ViewManager) (d : Nat) (m1 : ViewManager)
    (h : m.onViewDeleted d = some m1) : m.TraceExt m1 := by
  by_cases hcur : m.current_view_ = some d
  · unfold ViewManager.onViewDeleted at h
    simp only [hcur, if_true] at h
    by_cases hcond : m.getNumViews = 0 ∨ (m.getNumViews = 1 ∧ m.getViewAt 0 = some d)
    · have hcreate : m.create "Orbit" = m.construct .OrbitViewController "Orbit" := by
        simp [ViewManager.create]
      simp only [hcond, if_true, hcreate, ViewManager.construct] at h
      obtain ⟨r, hr, rfl⟩ := Option.map_eq_some'.mp h
      refine TraceExt_trans _ _ _ ?_ (setCurrent_traceExt _ _ _ _ hr)
      exact ⟨[Effect.constructed m.next_id .OrbitViewController "Orbit",
        Effect.addChild m.next_id m.children.length],
        by simp [ViewManager.add, ViewManager.addChild], by simp [Effect.panelAgrees]⟩
    · simp only [hcond, if_false] at h
      by_cases h0 : m.getViewAt 0 = some d
      · simp only [h0, if_true] at h
        cases h1 : m.getViewAt 1 with
        | none => simp [h1] at h
        | some y =>
          simp only [h1] at h
          obtain ⟨r, hr, rfl⟩ := Option.map_eq_some'.mp h
          exact setCurrent_traceExt _ _ _ _ hr
      · simp only [h0, if_false] at h
        cases h1 : m.getViewAt 0 with
        | none => simp [h1] at h
        | some y =>
          simp only [h1] at h
          obtain ⟨r, hr, rfl⟩ := Option.map_eq_some'.mp h
          exact setCurrent_traceExt _ _ _ _ hr
  · rw [onViewDeleted_other m d hcur] at h
    cases h
    exact TraceExt_refl m

theorem emitDestroyed_traceExt (v : Nat) (k : Nat) :
    ∀ (m m1 : ViewManager), ViewManager.emitDestroyed v k m = some m1 → m.TraceExt m1 := by
  induction k with
  | zero =>
    intro m m1 h
    simp only [ViewManager.emitDestroyed, Option.some.injEq] at h
    subst h
    exact TraceExt_refl m
  | succ n ih =>
    intro m m1 h
    simp only [ViewManager.emitDestroyed] at h
    cases h1 : m.onViewDeleted v with
    | none => simp [h1] at h
    | some m2 =>
      simp only [h1] at h
      exact TraceExt_trans _ _ _ (onViewDeleted_traceExt m v m2 h1) (ih m2 m1 h)

theorem deleteView_traceExt (m : ViewManager) (v : Nat) (m1 : ViewManager)
    (h : m.deleteView v = some m1) : m.TraceExt m1 := by
  unfold ViewManager.deleteView at h
  cases hd : m.deref v with
  | none => simp [hd] at h
  | some o =>
    simp only [hd] at h
    cases he : ViewManager.emitDestroyed v (m.connections.count v)
        { m with children := m.children.filter (fun c => c ≠ v)
                 trace := m.trace ++ [Effect.deleted v] } with
    | none =>
      rw [he] at h
      cases h
    | some m2 =>
      rw [he] at h
      simp only [Option.some.injEq] at h
      subst h
      have h2 := emitDestroyed_traceExt v _ _ _ he
      obtain ⟨a, ea, pa⟩ := h2
      refine ⟨Effect.deleted v :: a, by simpa using ea, ?_⟩
      intro e hmem
      rcases List.mem_cons.mp hmem with rfl | h3
      · simp [Effect.panelAgrees]
      · exact pa e h3

theorem create_cases (m : ViewManager) (type : String) :
    m.create type = (none, m) ∨ ∃ cls name, m.create type = m.construct cls name := by
  unfold ViewManager.create
  split_ifs
  · exact Or.inr ⟨_, _, rfl⟩
  · exact Or.inr ⟨_, _, rfl⟩
  · exact Or.inr ⟨_, _, rfl⟩
  · exact Or.inr ⟨_, _, rfl⟩
  · exact Or.inl rfl

theorem fallback_cases (m : ViewManager) (type : String) :
    (if (m.create type).1 = none ∧ (m.create type).2.current_view_ = none
      then (m.create type).2.create "Orbit" else m.create type) = (none, m) ∨
    ∃ cls name, (if (m.create type).1 = none ∧ (m.create type).2.current_view_ = none
      then (m.create type).2.create "Orbit" else m.create type) = m.construct cls name := by
  rcases create_cases m type with h | ⟨cls, name, h⟩
  · rw [h]
    by_cases hcur : m.current_view_ = none
    · right
      exact ⟨.OrbitViewController, "Orbit", by simp [hcur, ViewManager.create]⟩
    · left
      simp [hcur]
  · right
    exact ⟨cls, name, by rw [h]; simp [ViewManager.construct]⟩

theorem setCurrentViewControllerType_traceExt (m : ViewManager) (type : String)
    (r : Bool × ViewManager) (h : m.setCurrentViewControllerType type = some r) :
    m.TraceExt r.2 := by
  unfold ViewManager.setCurrentViewControllerType at h
  cases hg : m.currentIsType type with
  | none => simp [hg] at h
  | some b =>
    cases b with
    | true =>
      simp only [hg, Option.some.injEq] at h
      subst h
      exact TraceExt_refl m
    | false =>
      simp only [hg] at h
      rcases fallback_cases m type with hc | ⟨cls, name, hc⟩
      · simp only [hc, Option.some.injEq] at h
        subst h
        exact TraceExt_refl m
      · simp only [hc, ViewManager.construct, ViewManager.add, ViewManager.addChild] at h
        cases hcur : m.current_view_ with
        | none =>
          simp only [hcur] at h
          cases hs : ViewManager.setCurrent _ m.next_id true with
          | none => rw [hs] at h; cases h
          | some p =>
            rw [hs] at h
            simp only [Option.some.injEq] at h
            subst h
            refine TraceExt_trans _ _ _ ?_ (setCurrent_traceExt _ _ _ p hs)
            exact ⟨_, by simp; rfl, by simp [Effect.panelAgrees]⟩
        | some old =>
          simp only [hcur, ViewManager.initializeFrom] at h
          cases hs : ViewManager.setCurrent _ m.next_id true with
          | none => rw [hs] at h; cases h
          | some p =>
            rw [hs] at h
            obtain ⟨m4, hm4, rfl⟩ := Option.map_eq_some'.mp h
            refine TraceExt_trans _ _ _ ?_ (deleteView_traceExt _ _ _ hm4)
            refine TraceExt_trans _ _ _ ?_ (setCurrent_traceExt _ _ _ p hs)
            exact ⟨_, by simp; rfl, by simp [Effect.panelAgrees]⟩

theorem setName_trace (m : ViewManager) (v : Nat) (name : String) (m2 : ViewManager)
    (h : m.setName v name = some m2) : m2.trace = m.trace := by
  unfold ViewManager.setName at h
  cases hd : m.deref v with
  | none => simp [hd] at h
  | some o =>
    simp only [hd, Option.some.injEq] at h
    subst h
    rfl

theorem copyCurrent_traceExt (m m1 : ViewManager) (h : m.copyCurrent = some m1) :
    m.TraceExt m1 := by
  unfold ViewManager.copyCurrent at h
  cases hcur : m.current_view_ with
  | none => simp [hcur] at h
  | some cur =>
    simp only [hcur] at h
    cases hd : m.deref cur with
    | none => simp [hd] at h
    | some o =>
      simp only [hd] at h
      cases hn : (m.copy o).2.setName (m.copy o).1 ("Copy of " ++ o.name) with
      | none => rw [hn] at h; cases h
      | some m2 =>
        rw [hn] at h
        simp only at h
        cases hrow : m2.rowNumberInParent cur with
        | none => rw [hrow] at h; cases h
        | some row =>
          rw [hrow] at h
          simp only at h
          obtain ⟨p, hp, rfl⟩ := Option.map_eq_some'.mp h
          refine TraceExt_trans _ _ _ ?_ (setCurrent_traceExt _ _ _ p hp)
          have ht := setName_trace _ _ _ _ hn
          refine ⟨[Effect.copied m.next_id o.id, Effect.addChild (m.copy o).1
            (if (row : Int) + 1 < 0 ∨ (m2.children.length : Int) < (row : Int) + 1
              then m2.children.length else ((row : Int) + 1).toNat)], ?_, ?_⟩
          · simp [ViewManager.add, ViewManager.addChild, ht, ViewManager.copy]
          · simp [Effect.panelAgrees]

/-- C17: every `currentChanged` and `configChanged` notification that
`setCurrent`, `setCurrentViewControllerType`, `copyCurrent` or `onViewDeleted`
emits is emitted in a state where the render panel's controller is the
manager's current view, and `currentChanged` carries that same view: the trace
of the resulting state extends the trace of the input state by effects that all
satisfy `panelAgrees`. -/
theorem notifications_agree (m m1 : ViewManager)
    (h : (∃ v b r, m.setCurrent v b = some (r, m1)) ∨
      (∃ type r, m.setCurrentViewControllerType type = some (r, m1)) ∨
      m.copyCurrent = some m1 ∨
      (∃ d, m.onViewDeleted d = some m1)) :
    ∃ added, m1.trace = m.trace ++ added ∧ ∀ e ∈ added, e.panelAgrees := by
  rcases h with ⟨v, b, r, h⟩ | ⟨type, r, h⟩ | h | ⟨d, h⟩
  · exact setCurrent_traceExt m v b (r, m1) h
  · exact setCurrentViewControllerType_traceExt m type (r, m1) h
  · exact copyCurrent_traceExt m m1 h
  · exact onViewDeleted_traceExt m d m1 h

theorem notifications_agree_witness :
    ∃ m1 added, seeded.setCurrentViewControllerType "FPS" = some (true, m1) ∧
      m1.trace = seeded.trace ++ added ∧
      Effect.signal (Signal.currentChanged 1) (some 1) (some 1) ∈ added ∧
      Effect.signal Signal.configChanged (some 1) (some 1) ∈ added ∧
      ∀ e ∈ added, e.panelAgrees := by
  have h := switch_with_current seeded "FPS" .FPSViewController "FPS" 0
    { id := 0, cls := .OrbitViewController, name := "Orbit", target_frame := some "map" }
    rfl rfl (by decide) (by decide) (by decide)
  obtain ⟨added, ha, hp⟩ := notifications_agree seeded _ (Or.inr (Or.inl ⟨"FPS", true, h⟩))
  have hadd := List.append_cancel_left ha
  refine ⟨_, added, h, ha, ?_, ?_, hp⟩
  · rw [← hadd]; decide
  · rw [← hadd]; decide

/-- C16: on a well-formed state, a switch by `setCurrentViewControllerType`
that replaces an existing current view `old` (the type does not match it and
the factory builds an object) adds to the trace, in this order: the
construction of the new object, its insertion into the store, one
`initializeFrom(old)` on the new object, its binding to the render panel
followed by the notifications that see it as the current view, and last the
deletion of `old`.  `initializeFrom` occurs exactly once there, and not at all
in the effects of a call made when there was no current view. -/
theorem setCurrentViewControllerType_effect_order (m : ViewManager) (type : String)
    (hwf : m.WF) :
    (∀ old, m.current_view_ = some old → m.currentIsType type = some false →
      (m.create type).1 ≠ none →
      ∃ m1 cls added, m.setCurrentViewControllerType type = some (true, m1) ∧
        m1.trace = m.trace ++ added ∧
        added =
          [Effect.constructed m.next_id cls (displayName cls),
           Effect.addChild m.next_id m.children.length,
           Effect.initializeFrom m.next_id old,
           Effect.setViewController m.next_id true,
           Effect.setTargetFrame m.next_id m.target_frame,
           Effect.signal (Signal.currentChanged m.next_id) (some m.next_id) (some m.next_id),
           Effect.signal Signal.configChanged (some m.next_id) (some m.next_id),
           Effect.deleted old] ∧
        added.filter Effect.isInitializeFrom = [Effect.initializeFrom m.next_id old]) ∧
    (m.current_view_ = none →
      ∃ m1 cls added, m.setCurrentViewControllerType type = some (true, m1) ∧
        m1.trace = m.trace ++ added ∧
        added =
          [Effect.constructed m.next_id cls (displayName cls),
           Effect.addChild m.next_id m.children.length,
           Effect.setViewController m.next_id true,
           Effect.setTargetFrame m.next_id m.target_frame,
           Effect.signal (Signal.currentChanged m.next_id) (some m.next_id) (some m.next_id),
           Effect.signal Signal.configChanged (some m.next_id) (some m.next_id)] ∧
        added.filter Effect.isInitializeFrom = []) := by
  constructor
  · intro old hcur hg hbuilt
    obtain ⟨o, ho, hno⟩ := currentIsType_false m type old hcur hg
    have hr : type ∈ recognizedIdentifiers := by
      by_contra hr
      exact hbuilt (by rw [create_of_not_recognized m type hr])
    obtain ⟨cls, hcls⟩ := exists_class_of_recognized type hr
    have h := switch_with_current m type cls _ old o hcur ho hno
      (create_of_mem_aliasGroup m cls type hcls) hwf.1
    exact ⟨_, cls, _, h, rfl, rfl, by simp [Effect.isInitializeFrom]⟩
  · intro hcur
    obtain ⟨cls, hc, -, -⟩ := fallback_create m type hcur
    have h := switch_without_current m type cls _ hcur hc hwf.1
    exact ⟨_, cls, _, h, rfl, rfl, by simp [Effect.isInitializeFrom]⟩

theorem setCurrentViewControllerType_effect_order_witness :
    seeded.WF ∧
    ∃ m1, seeded.setCurrentViewControllerType "FPS" = some (true, m1) ∧
      m1.trace = seeded.trace ++
        [Effect.constructed 1 .FPSViewController "FPS",
         Effect.addChild 1 1,
         Effect.initializeFrom 1 0,
         Effect.setViewController 1 true,
         Effect.setTargetFrame 1 "map",
         Effect.signal (Signal.currentChanged 1) (some 1) (some 1),
         Effect.signal Signal.configChanged (some 1) (some 1),
         Effect.deleted 0] := by
  refine ⟨WF_seeded, ?_⟩
  obtain ⟨m1, cls, added, h, ht, ha, -⟩ :=
    (setCurrentViewControllerType_effect_order seeded "FPS" WF_seeded).1 0 rfl (by decide)
      (by decide)
  refine ⟨m1, h, ?_⟩
  rw [ht, ha]
  have hc : cls = .FPSViewController := by
    have h2 := switch_with_current seeded "FPS" .FPSViewController "FPS" 0
      { id := 0, cls := .OrbitViewController, name := "Orbit", target_frame := some "map" }
      rfl rfl (by decide) (by decide) (by decide)
    rw [h2] at h
    have h3 := congrArg (fun x => x.map (fun p => p.2.trace)) h
    simp only [Option.map_some', Option.some.injEq] at h3
    rw [ht, ha] at h3
    have h4 := List.append_cancel_left h3
    simp at h4
    exact h4.1.symm
  subst hc
  rfl

/-! ### Registry and factory -/

theorem registeredTypes_eq :
    registeredTypes = [.XYOrbitViewController, .OrbitViewController, .FPSViewController,
      .FixedOrientationOrthoViewController].map
        (fun cls => (getClassNameStatic cls, displayName cls)) := by
  decide

/-- C20: for every (class identifier, display name) pair that `initialize`
registers, `create` accepts both strings and builds an object whose class
identifier (`getClassName()`) is the registered class identifier and whose
display name is the registered display name; so every registered type can be
constructed, and the display name of the object is again an identifier that
`create` resolves to the same class and name. -/
theorem registry_factory_agree (m : ViewManager) (p : String × String) (type : String)
    (hwf : m.WF) (hp : p ∈ registeredTypes) (ht : type = p.1 ∨ type = p.2) :
    ∃ v o, (m.create type).1 = some v ∧ (m.create type).2.deref v = some o ∧
      o.getClassName = p.1 ∧ o.name = p.2 ∧
      ∀ m2 : ViewManager, m2.create o.name = m2.construct o.cls o.name := by
  rw [registeredTypes_eq] at hp
  obtain ⟨cls, -, rfl⟩ := List.mem_map.mp hp
  have hmem : type ∈ aliasGroup cls := by
    rcases ht with rfl | rfl <;> simp [aliasGroup]
  have hd : (m.construct cls (displayName cls)).2.deref m.next_id =
      some { id := m.next_id, cls := cls, name := displayName cls, target_frame := none } :=
    deref_append_new _ m.objects m.next_id _ hwf.1 rfl rfl
  refine ⟨m.next_id,
    { id := m.next_id, cls := cls, name := displayName cls, target_frame := none },
    by rw [create_of_mem_aliasGroup m cls type hmem]; rfl,
    by rw [create_of_mem_aliasGroup m cls type hmem]; exact hd, rfl, rfl, ?_⟩
  intro m2
  exact create_of_mem_aliasGroup m2 cls (displayName cls) (by simp [aliasGroup])

theorem registry_factory_agree_witness :
    seeded.WF ∧
    ("rviz::FixedOrientationOrthoViewController", "TopDownOrtho") ∈ registeredTypes ∧
    ∃ v o, (seeded.create "TopDownOrtho").1 = some v ∧
      (seeded.create "TopDownOrtho").2.deref v = some o ∧
      o.getClassName = "rviz::FixedOrientationOrthoViewController" ∧
      o.name = "TopDownOrtho" := by
  refine ⟨WF_seeded, by decide, ?_⟩
  obtain ⟨v, o, h1, h2, h3, h4, -⟩ :=
    registry_factory_agree seeded
      ("rviz::FixedOrientationOrthoViewController", "TopDownOrtho") "TopDownOrtho" WF_seeded
      (by decide) (Or.inr rfl)
  exact ⟨v, o, h1, h2, h3, h4⟩

/-! ### The invariant of the reachable states -/

theorem StoreCore_append (objs : List ViewController) (n : Nat) (ch ch1 : List Nat)
    (new : ViewController) (h : StoreCore objs n ch) (hnew : new.id = n)
    (hch : ∀ c, c ∈ ch1 ↔ c ∈ ch ∨ c = n) : StoreCore (objs ++ [new]) (n + 1) ch1 := by
  obtain ⟨h1, h2, h3, h4⟩ := h
  refine ⟨?_, ?_, ?_, ?_⟩
  · intro o ho
    rcases List.mem_append.mp ho with ho | ho
    · exact Nat.lt_succ_of_lt (h1 o ho)
    · rw [List.mem_singleton] at ho; subst ho; omega
  · rw [List.map_append, List.nodup_append]
    refine ⟨h2, by simp, ?_⟩
    intro a ha hb
    simp only [List.map_cons, List.map_nil, List.mem_singleton] at hb
    obtain ⟨o, ho, rfl⟩ := List.mem_map.mp ha
    have := h1 o ho
    omega
  · intro o ho
    rcases List.mem_append.mp ho with ho | ho
    · exact (hch o.id).mpr (Or.inl (h3 o ho))
    · rw [List.mem_singleton] at ho; subst ho; exact (hch _).mpr (Or.inr hnew)
  · intro c hc
    rcases (hch c).mp hc with hc | rfl
    · obtain ⟨o, ho, hoc⟩ := h4 c hc
      exact ⟨o, List.mem_append.mpr (Or.inl ho), hoc⟩
    · exact ⟨new, by simp, hnew⟩

theorem StoreCore_filter (objs : List ViewController) (n : Nat) (ch : List Nat) (v : Nat)
    (h : StoreCore objs n ch) :
    StoreCore (objs.filter (fun o => o.id ≠ v)) n (ch.filter (fun c => c ≠ v)) := by
  obtain ⟨h1, h2, h3, h4⟩ := h
  refine ⟨fun o ho => h1 o (List.mem_of_mem_filter ho),
    h2.sublist (List.Sublist.map _ (List.filter_sublist _)), ?_, ?_⟩
  · intro o ho
    obtain ⟨ho1, ho2⟩ := List.mem_filter.mp ho
    exact List.mem_filter.mpr ⟨h3 o ho1, ho2⟩
  · intro c hc
    obtain ⟨hc1, hc2⟩ := List.mem_filter.mp hc
    obtain ⟨o, ho, hoc⟩ := h4 c hc1
    exact ⟨o, List.mem_filter.mpr ⟨ho, by simpa [hoc] using hc2⟩, hoc⟩

theorem StoreCore_map (objs : List ViewController) (n : Nat) (ch : List Nat)
    (f : ViewController → ViewController) (hf : ∀ o, (f o).id = o.id)
    (h : StoreCore objs n ch) : StoreCore (objs.map f) n ch := by
  obtain ⟨h1, h2, h3, h4⟩ := h
  have hmap : (objs.map f).map (fun o => o.id) = objs.map (fun o => o.id) := by
    rw [List.map_map]
    exact List.map_congr_left (fun o _ => hf o)
  refine ⟨?_, by rw [hmap]; exact h2, ?_, ?_⟩
  · intro o ho
    obtain ⟨a, ha, rfl⟩ := List.mem_map.mp ho
    rw [hf]; exact h1 a ha
  · intro o ho
    obtain ⟨a, ha, rfl⟩ := List.mem_map.mp ho
    rw [hf]; exact h3 a ha
  · intro c hc
    obtain ⟨o, ho, hoc⟩ := h4 c hc
    exact ⟨f o, List.mem_map.mpr ⟨o, ho, rfl⟩, by rw [hf]; exact hoc⟩

theorem setTargetFrame_id (x : Nat) (frame : String) (o : ViewController) :
    (if o.id = x then { o with target_frame := some frame } else o).id = o.id := by
  by_cases h : o.id = x <;> simp [h]

theorem Inv_WF (m : ViewManager) (h : m.Inv) : m.WF := by
  obtain ⟨⟨h1, h2, h3, h4⟩, hc, -⟩ := h
  refine ⟨h1, h2, ?_, ?_⟩
  · intro c hcm
    rw [deref_isSome_iff]
    exact h4 c (hc c hcm).1
  · intro c hcm
    rw [deref_isSome_iff]
    exact h4 c hcm

theorem Inv_of_current (m : ViewManager) (c : Nat)
    (hcore : StoreCore m.objects m.next_id m.children) (hcur : m.current_view_ = some c)
    (hc : c ∈ m.children) (hconn : c ∈ m.connections) : m.Inv := by
  refine ⟨hcore, ?_, fun _ => by simp [hcur]⟩
  intro x hx
  rw [hcur] at hx
  obtain rfl : c = x := by simpa using hx
  exact ⟨hc, hconn⟩

theorem Inv_new (target_frame : String) : (ViewManager.new target_frame).Inv := by
  simp [ViewManager.Inv, StoreCore, ViewManager.new]

theorem Inv_switch (m : ViewManager) (type : String) (r : Bool × ViewManager)
    (hinv : m.Inv) (h : m.setCurrentViewControllerType type = some r) : r.2.Inv := by
  have hwf := Inv_WF m hinv
  obtain ⟨hcore, hcurI, hne⟩ := hinv
  cases hcur : m.current_view_ with
  | none =>
    obtain ⟨cls, hc, -, -⟩ := fallback_create m type hcur
    rw [switch_without_current m type cls _ hcur hc hwf.1] at h
    cases h
    refine Inv_of_current _ m.next_id ?_ rfl (by simp) (by simp)
    exact StoreCore_append _ _ _ _ _ hcore rfl (by intro c; simp)
  | some old =>
    obtain ⟨o, ho⟩ := WF_current m hwf old hcur
    by_cases hm : o.getClassName = type ∨ o.name = type
    · rw [switch_same m type old o hcur ho hm] at h
      cases h
      exact ⟨hcore, hcurI, hne⟩
    · by_cases hr : type ∈ recognizedIdentifiers
      · obtain ⟨cls, hcls⟩ := exists_class_of_recognized type hr
        rw [switch_with_current m type cls _ old o hcur ho hm
          (create_of_mem_aliasGroup m cls type hcls) hwf.1] at h
        cases h
        refine Inv_of_current _ m.next_id ?_ rfl (by simp) (by simp)
        exact StoreCore_append _ _ _ _ _ (StoreCore_filter _ _ _ old hcore) rfl
          (by intro c; simp)
      · rw [switch_no_build m type old o hcur ho hm (create_of_not_recognized m type hr)] at h
        cases h
        exact ⟨hcore, hcurI, hne⟩

theorem Inv_setCurrent (m : ViewManager) (v : Nat) (b : Bool) (r : Bool × ViewManager)
    (hinv : m.Inv) (h : m.setCurrent v b = some r) : r.2.Inv := by
  by_cases hcur : m.current_view_ = some v
  · rw [setCurrent_of_eq m v b hcur] at h
    cases h
    exact hinv
  · cases hl : m.deref v with
    | none =>
      rw [setCurrent_none_of_dead m v b hcur hl] at h
      cases h
    | some o =>
      rw [setCurrent_of_ne m v b hcur (by simp [hl])] at h
      cases h
      obtain ⟨hcore, -, -⟩ := hinv
      have hv : v ∈ m.children := by
        have := hcore.2.2.1 o (deref_mem m v o hl)
        rwa [deref_id m v o hl] at this
      refine Inv_of_current _ v ?_ rfl hv (by simp)
      exact StoreCore_map _ _ _ _ (setTargetFrame_id v m.target_frame) hcore

theorem Inv_copyCurrent (m m1 : ViewManager) (hinv : m.Inv) (h : m.copyCurrent = some m1) :
    m1.Inv := by
  have hwf := Inv_WF m hinv
  obtain ⟨hcore, hcurI, -⟩ := hinv
  cases hcur : m.current_view_ with
  | none => simp [ViewManager.copyCurrent, hcur] at h
  | some cur =>
    obtain ⟨o, ho⟩ := WF_current m hwf cur hcur
    have hmem : cur ∈ m.children := (hcurI cur (by simp [hcur])).1
    obtain ⟨pre, post, hstore, hpre⟩ := List.eq_append_cons_of_mem hmem
    rw [copyCurrent_eq m cur o pre post hwf.1 hcur ho hstore hpre] at h
    cases h
    refine Inv_of_current _ m.next_id ?_ rfl (by simp) (by simp)
    refine StoreCore_append _ _ _ _ _ hcore rfl ?_
    intro c
    rw [hstore]
    simp only [List.mem_append, List.mem_cons]
    tauto

theorem Inv_deleteView (m : ViewManager) (v : Nat) (m1 : ViewManager) (hinv : m.Inv)
    (hv : v ∈ m.children) (h : m.deleteView v = some m1) : m1.Inv := by
  have hwf := Inv_WF m hinv
  obtain ⟨hcore, hcurI, hne⟩ := hinv
  obtain ⟨o, ho⟩ := Option.isSome_iff_exists.mp (hwf.2.2.2 v hv)
  by_cases hcur : m.current_view_ = some v
  · have hconn : v ∈ m.connections := (hcurI v (by simp [hcur])).2
    cases hf : m.children.filter (fun c => c ≠ v) with
    | nil =>
      rw [deleteView_current_rebuild m v o ho hcur hconn hf hwf.1] at h
      cases h
      refine Inv_of_current _ m.next_id ?_ rfl (by simp) (by simp)
      refine StoreCore_append _ _ _ _ _ (StoreCore_filter _ _ _ v hcore) rfl ?_
      intro c
      rw [hf]
      simp
    | cons x rest =>
      have hxm : x ∈ m.children.filter (fun c => c ≠ v) := by
        rw [hf]; exact List.mem_cons_self x rest
      have hx : (m.deref x).isSome = true := hwf.2.2.2 x (List.mem_of_mem_filter hxm)
      rw [deleteView_current_next m v x rest o ho hcur hconn hf hx] at h
      cases h
      refine Inv_of_current _ x ?_ rfl (List.mem_cons_self x rest) (by simp)
      have hc2 := StoreCore_filter _ _ _ v
        (StoreCore_map _ _ _ _ (setTargetFrame_id x m.target_frame) hcore)
      rw [hf] at hc2
      exact hc2
  · rw [deleteView_other m v o ho hcur] at h
    cases h
    refine ⟨StoreCore_filter _ _ _ v hcore, ?_, ?_⟩
    · intro c hc
      have hcv : c ≠ v := by
        rintro rfl
        exact hcur (by simpa using hc)
      obtain ⟨h1, h2⟩ := hcurI c hc
      exact ⟨List.mem_filter.mpr ⟨h1, by simpa using hcv⟩,
        List.mem_filter.mpr ⟨h2, by simpa using hcv⟩⟩
    · intro _
      exact hne (List.ne_nil_of_mem hv)

theorem Inv_addViewController (m : ViewManager) (class_name name : String) (hinv : m.Inv) :
    (m.addViewController class_name name).Inv := hinv

theorem Inv_initialize (m m1 : ViewManager) (hinv : m.Inv)
    (h : ViewManager.initialize m = some m1) : m1.Inv := by
  unfold ViewManager.initialize at h
  obtain ⟨r, hr, rfl⟩ := Option.map_eq_some'.mp h
  exact Inv_switch _ _ r
    (Inv_addViewController _ _ _ (Inv_addViewController _ _ _
      (Inv_addViewController _ _ _ (Inv_addViewController _ _ _ hinv)))) hr

theorem Inv_step (m m1 : ViewManager) (op : Op) (hinv : m.Inv) (h : m.step op = some m1) :
    m1.Inv := by
  cases op with
  | init => exact Inv_initialize m m1 hinv h
  | setCurrentViewControllerType type =>
    obtain ⟨r, hr, rfl⟩ := Option.map_eq_some'.mp h
    exact Inv_switch m type r hinv hr
  | setCurrent view b =>
    obtain ⟨r, hr, rfl⟩ := Option.map_eq_some'.mp h
    exact Inv_setCurrent m view b r hinv hr
  | copyCurrent => exact Inv_copyCurrent m m1 hinv h
  | destroy view =>
    simp only [ViewManager.step] at h
    by_cases hv : view ∈ m.children
    · rw [if_pos hv] at h
      exact Inv_deleteView m view m1 hinv hv h
    · rw [if_neg hv] at h
      cases h

theorem Inv_run (ops : List Op) :
    ∀ (m m1 : ViewManager), m.Inv → m.run ops = some m1 → m1.Inv := by
  induction ops with
  | nil =>
    intro m m1 hinv h
    simp only [ViewManager.run, Option.some.injEq] at h
    subst h
    exact hinv
  | cons op rest ih =>
    intro m m1 hinv h
    simp only [ViewManager.run] at h
    cases hs : m.step op with
    | none => rw [hs] at h; cases h
    | some m2 =>
      rw [hs] at h
      exact ih m2 m1 (Inv_step m m2 op hinv hs) h

/-- On a state satisfying the invariant a public operation is defined whenever
its pointer argument is meaningful: `setCurrent` of a live view, `copyCurrent`
with a current view, destruction of a stored view; `initialize` and
`setCurrentViewControllerType` always. -/
theorem step_defined (m : ViewManager) (op : Op) (hinv : m.Inv)
    (hpre : match op with
      | .setCurrent view _ => (m.deref view).isSome = true
      | .copyCurrent => m.current_view_ ≠ none
      | .destroy view => view ∈ m.children
      | _ => True) :
    ∃ m1, m.step op = some m1 := by
  have hwf := Inv_WF m hinv
  cases op with
  | init =>
    have hinv4 := Inv_addViewController _
      (getClassNameStatic .FixedOrientationOrthoViewController) "TopDownOrtho"
      (Inv_addViewController _ (getClassNameStatic .FPSViewController) "FPS"
        (Inv_addViewController _ (getClassNameStatic .OrbitViewController) "Orbit"
          (Inv_addViewController m (getClassNameStatic .XYOrbitViewController) "XYOrbit" hinv)))
    obtain ⟨r, hr⟩ := switch_total _ (getClassNameStatic .OrbitViewController)
      (Inv_WF _ hinv4)
    refine ⟨r.2, ?_⟩
    show ViewManager.initialize m = some r.2
    simp only [ ViewManager.initialize ]
    rw [hr]
    rfl
  | setCurrentViewControllerType type =>
    obtain ⟨r, hr⟩ := switch_total m type hwf
    exact ⟨r.2, by simp [ViewManager.step, hr]⟩
  | setCurrent view b =>
    by_cases hcur : m.current_view_ = some view
    · exact ⟨m, by simp [ViewManager.step, setCurrent_of_eq m view b hcur]⟩
    · exact ⟨_, by simp only [ViewManager.step, setCurrent_of_ne m view b hcur hpre]; rfl⟩
  | copyCurrent =>
    cases hcur : m.current_view_ with
    | none => exact absurd hcur hpre
    | some cur =>
      obtain ⟨o, ho⟩ := WF_current m hwf cur hcur
      have hmem : cur ∈ m.children := (hinv.2.1 cur (by simp [hcur])).1
      obtain ⟨pre, post, hstore, hp⟩ := List.eq_append_cons_of_mem hmem
      exact ⟨_, copyCurrent_eq m cur o pre post hwf.1 hcur ho hstore hp⟩
  | destroy view =>
    have hv : view ∈ m.children := hpre
    obtain ⟨o, ho⟩ := Option.isSome_iff_exists.mp (hwf.2.2.2 view hv)
    simp only [ViewManager.step, if_pos hv]
    by_cases hcur : m.current_view_ = some view
    · have hconn : view ∈ m.connections := (hinv.2.1 view (by simp [hcur])).2
      cases hf : m.children.filter (fun c => c ≠ view) with
      | nil => exact ⟨_, deleteView_current_rebuild m view o ho hcur hconn hf hwf.1⟩
      | cons x rest =>
        have hxm : x ∈ m.children.filter (fun c => c ≠ view) := by
          rw [hf]; exact List.mem_cons_self x rest
        have hx : (m.deref x).isSome = true := hwf.2.2.2 x (List.mem_of_mem_filter hxm)
        exact ⟨_, deleteView_current_next m view x rest o ho hcur hconn hf hx⟩
    · exact ⟨_, deleteView_other m view o ho hcur⟩

/-- C14 (current-pointer invariant): in every state reached from a freshly
constructed manager by a sequence of public operations (`initialize`,
`setCurrentViewControllerType`, `setCurrent`, `copyCurrent`, destruction of a
stored view with the `onViewDeleted` it triggers), a non-empty store has a
current view, the current view is a member of the store, and it is a live
object (deleted objects leave the heap and identities are never reused, so it
is not a destroyed instance). -/
theorem current_view_in_store (target_frame : String) (ops : List Op) (m : ViewManager)
    (h : (ViewManager.new target_frame).run ops = some m) :
    (m.children ≠ [] → ∃ c, m.current_view_ = some c ∧ c ∈ m.children) ∧
    (∀ c, m.current_view_ = some c → c ∈ m.children ∧ (m.deref c).isSome = true) := by
  have hinv := Inv_run ops _ m (Inv_new target_frame) h
  have hwf := Inv_WF m hinv
  obtain ⟨-, hcur, hne⟩ := hinv
  have hall : ∀ c, m.current_view_ = some c → c ∈ m.children ∧ (m.deref c).isSome = true := by
    intro c hc
    exact ⟨(hcur c (by simp [hc])).1, hwf.2.2.1 c (by simp [hc])⟩
  refine ⟨?_, hall⟩
  intro hch
  cases hc : m.current_view_ with
  | none => exact absurd hc (hne hch)
  | some c => exact ⟨c, rfl, (hall c hc).1⟩

theorem current_view_in_store_witness :
    ∃ m, (ViewManager.new "map").run
        [Op.init, Op.copyCurrent, Op.setCurrent 0 true, Op.destroy 0,
         Op.setCurrentViewControllerType "FPS", Op.destroy 2] = some m ∧
      m.children = [3] ∧ m.current_view_ = some 3 ∧
      (m.children ≠ [] → ∃ c, m.current_view_ = some c ∧ c ∈ m.children) ∧
      (∀ c, m.current_view_ = some c → c ∈ m.children ∧ (m.deref c).isSome = true) := by
  have hs : (((ViewManager.new "map").run
      [Op.init, Op.copyCurrent, Op.setCurrent 0 true, Op.destroy 0,
       Op.setCurrentViewControllerType "FPS", Op.destroy 2]).map
        (fun m => (m.children, m.current_view_))) = some ([3], some 3) := by
    decide
  obtain ⟨m, hm, hp⟩ := Option.map_eq_some'.mp hs
  have h1 : m.children = [3] := congrArg Prod.fst hp
  have h2 : m.current_view_ = some 3 := congrArg Prod.snd hp
  have h := current_view_in_store "map" _ m hm
  exact ⟨m, hm, h1, h2, h.1, h.2⟩

end rviz
